import Mathlib

/-!
Verification of the adapter engine of the Cursor-Azure-GPT-5.2 gateway.

The Python sources under src/app are shallowly embedded below.  Conventions
of the embedding:

* Python values flowing through JSON-shaped data are modelled by `PyVal`
  (dicts are association lists in insertion order, with unique keys kept by
  `upsert`, matching CPython dict semantics).
* Upstream byte streams are modelled as lists of characters; the
  `decode("utf-8")` step of the source is modelled as the identity on that
  character stream (every byte of interest to the translator is ASCII).
* Fallible Python operations (attribute errors on `.get` of non-dicts,
  `TypeError` on `len(None)`, `KeyError` on subscripts, `ValueError` from
  validation) are modelled with `Except PErr`.
* `time.time()` and the random completion id are ambient per-stream
  constants carried in `StreamEnv`; console logging (`rich.live`) is an
  observability collaborator with no effect on emitted bytes, except for
  the `events` counter of `AnthropicResponseAdapter.adapt.generate`, which
  the source mutates only under `LOG_COMPLETION` and which is modelled
  exactly as written.
-/

set_option maxRecDepth 100000

/-- Python error kinds raised by the embedded code. -/
inductive PErr where
  | attributeError
  | typeError
  | keyError (k : String)
  | valueError (msg : String)
  | serviceConfigurationError (msg : String)
  | cursorConfigurationError (msg : String)
  | modelNotFoundError (msg : String)
deriving DecidableEq

/-- Python/JSON values: None, bool, int, float (kept as its literal lexeme,
since no embedded code computes with float values), str, list, dict. -/
inductive PyVal where
  | none
  | bool (b : Bool)
  | int (n : Int)
  | float (raw : String)
  | str (s : String)
  | list (xs : List PyVal)
  | dict (kvs : List (String × PyVal))

/-- First-match lookup in an association list (dict keys are unique). -/
def dictFind : List (String × PyVal) → String → Option PyVal
  | [], _ => Option.none
  | (k2, v) :: rest, k => if k2 == k then Option.some v else dictFind rest k

/-- CPython dict assignment: updates the value in place if the key exists
(keeping its insertion position), else appends a new entry. -/
def upsert : List (String × PyVal) → String → PyVal → List (String × PyVal)
  | [], k, v => [(k, v)]
  | (k2, w) :: rest, k, v =>
    if k2 == k then (k2, v) :: rest else (k2, w) :: upsert rest k v

/-- A float literal denotes zero iff its mantissa has digits and they are
all `0` (so `NaN`/`Infinity`, which have no digits, are non-zero). -/
def floatLexemeIsZero (raw : String) : Bool :=
  let mantissa := raw.toList.takeWhile (fun c => c ≠ 'e' && c ≠ 'E')
  mantissa.any (fun c => c.isDigit) && mantissa.all (fun c => !c.isDigit || c = '0')

/-- Python truthiness of a value. -/
def PyVal.truthy : PyVal → Bool
  | .none => false
  | .bool b => b
  | .int n => n != 0
  | .float raw => !floatLexemeIsZero raw
  | .str s => !s.isEmpty
  | .list xs => !xs.isEmpty
  | .dict kvs => !kvs.isEmpty

/-- Python `x == "s"`: true only when `x` is exactly that string. -/
def PyVal.eqStr : PyVal → String → Bool
  | .str t, s => t == s
  | _, _ => false

/-- Python `d.get(k)`: `AttributeError` unless `d` is a dict; missing keys
yield `None`. -/
def PyVal.attrGet : PyVal → String → Except PErr PyVal
  | .dict kvs, k => .ok ((dictFind kvs k).getD PyVal.none)
  | _, _ => .error .attributeError

/-- Python `d.get(k, default)`. -/
def PyVal.attrGetD : PyVal → String → PyVal → Except PErr PyVal
  | .dict kvs, k, d => .ok ((dictFind kvs k).getD d)
  | _, _, _ => .error .attributeError

/-- Python `d[k]` for a string subscript: `KeyError` when a dict lacks the
key, `TypeError` on every non-dict. -/
def PyVal.getItem : PyVal → String → Except PErr PyVal
  | .dict kvs, k =>
    match dictFind kvs k with
    | Option.some v => .ok v
    | Option.none => .error (.keyError k)
  | _, _ => .error .typeError

/-- Python `k in d` for a dict `d`. -/
def PyVal.hasKey : PyVal → String → Bool
  | .dict kvs, k => (dictFind kvs k).isSome
  | _, _ => false

def PyVal.isDict : PyVal → Bool
  | .dict _ => true
  | _ => false

def PyVal.isList : PyVal → Bool
  | .list _ => true
  | _ => false

def PyVal.isStr : PyVal → Bool
  | .str _ => true
  | _ => false

/-- Quiet dict lookup used by proof-level predicates (never errors):
missing key or non-dict value gives `None`. -/
def qget (v : PyVal) (k : String) : PyVal :=
  match v with
  | .dict kvs => (dictFind kvs k).getD PyVal.none
  | _ => PyVal.none

/-- Quiet dict lookup with a default, used by proof-level predicates. -/
def qgetD (v : PyVal) (k : String) (d : PyVal) : PyVal :=
  match v with
  | .dict kvs => (dictFind kvs k).getD d
  | _ => d

/-- Python `a or b`. -/
def pyOr (a b : PyVal) : PyVal := if a.truthy then a else b

/-- Escape one character of a Python single-quoted `repr` string. -/
def pyReprEscape (c : Char) : String :=
  if c = '\\' then "\\\\" else if c = '\x27' then "\\\x27" else String.singleton c

mutual

/-- Python `repr` of a value, as used by `str` on containers (container
rendering is best-effort: strings are always single-quoted). -/
def pyRepr : PyVal → String
  | .none => "None"
  | .bool true => "True"
  | .bool false => "False"
  | .int n => toString n
  | .float raw => raw
  | .str s => "\x27" ++ String.join (s.toList.map pyReprEscape) ++ "\x27"
  | .list xs => "[" ++ pyReprList xs ++ "]"
  | .dict kvs => "\x7b" ++ pyReprKVs kvs ++ "\x7d"

def pyReprList : List PyVal → String
  | [] => ""
  | [x] => pyRepr x
  | x :: xs => pyRepr x ++ ", " ++ pyReprList xs

def pyReprKVs : List (String × PyVal) → String
  | [] => ""
  | [(k, v)] => pyRepr (.str k) ++ ": " ++ pyRepr v
  | (k, v) :: kvs => pyRepr (.str k) ++ ": " ++ pyRepr v ++ ", " ++ pyReprKVs kvs

end

/-- Python `str` of a value. -/
def pyStr : PyVal → String
  | .str s => s
  | v => pyRepr v

/-- Hexadecimal digit (lowercase), as in json.dumps `\uXXXX` escapes. -/
def hexDigit (n : Nat) : Char :=
  if n < 10 then Char.ofNat (48 + n) else Char.ofNat (87 + n)

/-- Four-digit lowercase hex rendering of a code unit. -/
def hex4 (n : Nat) : String :=
  String.mk [hexDigit (n / 4096 % 16), hexDigit (n / 256 % 16),
             hexDigit (n / 16 % 16), hexDigit (n % 16)]

/-- Escape one character as json.dumps (ensure_ascii=True) does. -/
def jsonEscapeChar (c : Char) : String :=
  if c = '"' then "\\\""
  else if c = '\\' then "\\\\"
  else if c = '\n' then "\\n"
  else if c = '\r' then "\\r"
  else if c = '\t' then "\\t"
  else if c = '\x08' then "\\b"
  else if c = '\x0c' then "\\f"
  else if c.toNat < 32 then "\\u" ++ hex4 c.toNat
  else if c.toNat < 127 then String.singleton c
  else if c.toNat < 65536 then "\\u" ++ hex4 c.toNat
  else
    let v := c.toNat - 65536
    "\\u" ++ hex4 (55296 + v / 1024) ++ "\\u" ++ hex4 (56320 + v % 1024)

/-- json.dumps rendering of a string. -/
def jsonQuote (s : String) : String :=
  "\"" ++ String.join (s.toList.map jsonEscapeChar) ++ "\""

mutual

/-- json.dumps with default separators (float literals are kept verbatim;
CPython would re-render them through `repr(float)`, a cosmetic difference). -/
def jsonDumps : PyVal → String
  | .none => "null"
  | .bool true => "true"
  | .bool false => "false"
  | .int n => toString n
  | .float raw => raw
  | .str s => jsonQuote s
  | .list xs => "[" ++ jsonDumpsList xs ++ "]"
  | .dict kvs => "\x7b" ++ jsonDumpsKVs kvs ++ "\x7d"

def jsonDumpsList : List PyVal → String
  | [] => ""
  | [x] => jsonDumps x
  | x :: xs => jsonDumps x ++ ", " ++ jsonDumpsList xs

def jsonDumpsKVs : List (String × PyVal) → String
  | [] => ""
  | [(k, v)] => jsonQuote k ++ ": " ++ jsonDumps v
  | (k, v) :: kvs => jsonQuote k ++ ": " ++ jsonDumps v ++ ", " ++ jsonDumpsKVs kvs

end

/-! JSON parsing, modelling Python `json.loads` (strict mode, the default):
recursive descent with a fuel argument that the top-level entry point sets
above the input length, so fuel never runs out on inputs the grammar
accepts. -/

/-- JSON whitespace (exactly space, tab, newline, carriage return). -/
def isJsonWs (c : Char) : Bool :=
  c = ' ' || c = '\t' || c = '\n' || c = '\r'

def skipWs (s : List Char) : List Char := s.dropWhile isJsonWs

def hexVal (c : Char) : Option Nat :=
  if '0' ≤ c && c ≤ '9' then Option.some (c.toNat - 48)
  else if 'a' ≤ c && c ≤ 'f' then Option.some (c.toNat - 87)
  else if 'A' ≤ c && c ≤ 'F' then Option.some (c.toNat - 55)
  else Option.none

/-- Parse the four hex digits of a `\uXXXX` escape. -/
def hex4Val : List Char → Option (Nat × List Char)
  | a :: b :: c :: d :: rest =>
    match hexVal a, hexVal b, hexVal c, hexVal d with
    | Option.some x, Option.some y, Option.some z, Option.some w =>
      Option.some (4096 * x + 256 * y + 16 * z + w, rest)
    | _, _, _, _ => Option.none
  | _ => Option.none

/-- Digits of a nonempty decimal run. -/
def takeDigits (s : List Char) : List Char × List Char :=
  (s.takeWhile Char.isDigit, s.dropWhile Char.isDigit)

def digitsToNat (ds : List Char) : Nat :=
  ds.foldl (fun acc c => 10 * acc + (c.toNat - 48)) 0

/-- Parse a JSON number: an integer literal yields `.int`; a literal with a
fraction or exponent yields `.float` carrying the lexeme. -/
def parseJsonNumber (s : List Char) : Option (PyVal × List Char) :=
  let (sign, s1) := match s with
    | '-' :: rest => (true, rest)
    | _ => (false, s)
  let (intDigits, s2) := takeDigits s1
  if intDigits.isEmpty then Option.none
  else if intDigits.length > 1 && intDigits.headD '0' = '0' then Option.none
  else
    let (fracDigits, s3) := match s2 with
      | '.' :: rest =>
        let (ds, r) := takeDigits rest
        (Option.some ds, r)
      | _ => (Option.none, s2)
    match fracDigits with
    | Option.some ds =>
      if ds.isEmpty then Option.none
      else parseJsonExpo sign intDigits (Option.some ds) s3
    | Option.none => parseJsonExpo sign intDigits Option.none s3
where
  parseJsonExpo (sign : Bool) (intDigits : List Char)
      (fracDigits : Option (List Char)) (s : List Char) :
      Option (PyVal × List Char) :=
    let lexeme (expPart : List Char) : String :=
      String.mk ((if sign then ['-'] else []) ++ intDigits ++
        (match fracDigits with
         | Option.some ds => '.' :: ds
         | Option.none => []) ++ expPart)
    match s with
    | e :: rest =>
      if e = 'e' || e = 'E' then
        let (esign, rest2) := match rest with
          | '+' :: r => (['+'], r)
          | '-' :: r => (['-'], r)
          | _ => (([] : List Char), rest)
        let (eds, rest3) := takeDigits rest2
        if eds.isEmpty then Option.none
        else Option.some (.float (lexeme (e :: esign ++ eds)), rest3)
      else
        match fracDigits with
        | Option.some _ => Option.some (.float (lexeme []), s)
        | Option.none =>
          Option.some (.int (if sign then -(digitsToNat intDigits : Int)
                             else (digitsToNat intDigits : Int)), s)
    | [] =>
      match fracDigits with
      | Option.some _ => Option.some (.float (lexeme []), [])
      | Option.none =>
        Option.some (.int (if sign then -(digitsToNat intDigits : Int)
                           else (digitsToNat intDigits : Int)), [])

mutual

/-- Parse one JSON value (leading whitespace allowed). -/
def jsonValue : Nat → List Char → Option (PyVal × List Char)
  | 0, _ => Option.none
  | Nat.succ fuel, s =>
    match skipWs s with
    | [] => Option.none
    | c :: rest =>
      if c = '"' then
        match jsonStringChars fuel rest with
        | Option.some (cs, r) => Option.some (.str (String.mk cs), r)
        | Option.none => Option.none
      else if c = '\x7b' then
        match skipWs rest with
        | '\x7d' :: r => Option.some (.dict [], r)
        | r => jsonMembers fuel r []
      else if c = '[' then
        match skipWs rest with
        | ']' :: r => Option.some (.list [], r)
        | r => jsonItems fuel r []
      else if c = 't' then
        match rest with
        | 'r' :: 'u' :: 'e' :: r => Option.some (.bool true, r)
        | _ => Option.none
      else if c = 'f' then
        match rest with
        | 'a' :: 'l' :: 's' :: 'e' :: r => Option.some (.bool false, r)
        | _ => Option.none
      else if c = 'n' then
        match rest with
        | 'u' :: 'l' :: 'l' :: r => Option.some (.none, r)
        | _ => Option.none
      else if c = 'N' then
        match rest with
        | 'a' :: 'N' :: r => Option.some (.float "NaN", r)
        | _ => Option.none
      else if c = 'I' then
        match rest with
        | 'n' :: 'f' :: 'i' :: 'n' :: 'i' :: 't' :: 'y' :: r =>
          Option.some (.float "Infinity", r)
        | _ => Option.none
      else if c = '-' then
        match rest with
        | 'I' :: 'n' :: 'f' :: 'i' :: 'n' :: 'i' :: 't' :: 'y' :: r =>
          Option.some (.float "-Infinity", r)
        | _ => parseJsonNumber (c :: rest)
      else parseJsonNumber (c :: rest)

/-- Parse the characters of a JSON string after its opening quote. -/
def jsonStringChars : Nat → List Char → Option (List Char × List Char)
  | 0, _ => Option.none
  | Nat.succ fuel, s =>
    match s with
    | [] => Option.none
    | c :: rest =>
      if c = '"' then Option.some ([], rest)
      else if c = '\\' then
        match rest with
        | [] => Option.none
        | e :: rest2 =>
          let simple : Option Char :=
            if e = '"' then Option.some '"'
            else if e = '\\' then Option.some '\\'
            else if e = '/' then Option.some '/'
            else if e = 'b' then Option.some '\x08'
            else if e = 'f' then Option.some '\x0c'
            else if e = 'n' then Option.some '\n'
            else if e = 'r' then Option.some '\r'
            else if e = 't' then Option.some '\t'
            else Option.none
          match simple with
          | Option.some ch =>
            match jsonStringChars fuel rest2 with
            | Option.some (cs, r) => Option.some (ch :: cs, r)
            | Option.none => Option.none
          | Option.none =>
            if e = 'u' then
              match hex4Val rest2 with
              | Option.some (n, rest3) =>
                if 55296 ≤ n && n ≤ 56319 then
                  match rest3 with
                  | '\\' :: 'u' :: rest4 =>
                    match hex4Val rest4 with
                    | Option.some (m, rest5) =>
                      if 56320 ≤ m && m ≤ 57343 then
                        let cp := 65536 + (n - 55296) * 1024 + (m - 56320)
                        match jsonStringChars fuel rest5 with
                        | Option.some (cs, r) =>
                          Option.some (Char.ofNat cp :: cs, r)
                        | Option.none => Option.none
                      else
                        match jsonStringChars fuel rest5 with
                        | Option.some (cs, r) =>
                          Option.some (Char.ofNat n :: Char.ofNat m :: cs, r)
                        | Option.none => Option.none
                    | Option.none => Option.none
                  | _ =>
                    match jsonStringChars fuel rest3 with
                    | Option.some (cs, r) => Option.some (Char.ofNat n :: cs, r)
                    | Option.none => Option.none
                else
                  match jsonStringChars fuel rest3 with
                  | Option.some (cs, r) => Option.some (Char.ofNat n :: cs, r)
                  | Option.none => Option.none
              | Option.none => Option.none
            else Option.none
      else if c.toNat < 32 then Option.none
      else
        match jsonStringChars fuel rest with
        | Option.some (cs, r) => Option.some (c :: cs, r)
        | Option.none => Option.none

/-- Parse the members of a JSON object after `{` (first member expected);
duplicate keys overwrite, keeping the first insertion position, like
CPython. -/
def jsonMembers : Nat → List Char → List (String × PyVal) →
    Option (PyVal × List Char)
  | 0, _, _ => Option.none
  | Nat.succ fuel, s, acc =>
    match skipWs s with
    | '"' :: rest =>
      match jsonStringChars fuel rest with
      | Option.some (kcs, r1) =>
        match skipWs r1 with
        | ':' :: r2 =>
          match jsonValue fuel r2 with
          | Option.some (v, r3) =>
            let acc2 := upsert acc (String.mk kcs) v
            match skipWs r3 with
            | ',' :: r4 => jsonMembers fuel r4 acc2
            | '\x7d' :: r4 => Option.some (.dict acc2, r4)
            | _ => Option.none
          | Option.none => Option.none
        | _ => Option.none
      | Option.none => Option.none
    | _ => Option.none

/-- Parse the items of a JSON array after `[` (first item expected). -/
def jsonItems : Nat → List Char → List PyVal → Option (PyVal × List Char)
  | 0, _, _ => Option.none
  | Nat.succ fuel, s, acc =>
    match jsonValue fuel s with
    | Option.some (v, r1) =>
      match skipWs r1 with
      | ',' :: r2 => jsonItems fuel r2 (acc ++ [v])
      | ']' :: r2 => Option.some (.list (acc ++ [v]), r2)
      | _ => Option.none
    | Option.none => Option.none

end

/-- json.loads: parse one value and require only whitespace after it;
any failure is a `JSONDecodeError`, modelled as `Option.none`. -/
def jsonLoads (s : List Char) : Option PyVal :=
  match jsonValue (s.length + 8) s with
  | Option.some (v, rest) =>
    if (skipWs rest).isEmpty then Option.some v else Option.none
  | Option.none => Option.none

/-! Embedding of src/app/anthropic/response_adapter.py
(`AnthropicResponseAdapter`): the Messages-style stream translator. -/

/-- Ambient per-stream constants of `adapt.generate`: the completion id
(`_create_chat_completion_id`, random), the creation timestamp
(`int(time.time())`, modelled as one constant for the stream), the inbound
model name, and the `LOG_COMPLETION` flag of the app config. -/
structure StreamEnv where
  chat_completion_id : String
  created : Int
  inbound_model : String
  log_completion : Bool

/-- Mutable state of the translator across lines: `_tool_calls_count`
(a Python int) and the local `events` counter of `generate`. -/
structure MSt where
  tool_calls_count : Int
  events : Nat
deriving DecidableEq

/-- `AnthropicResponseAdapter._build_completion_chunk`. -/
def build_completion_chunk (env : StreamEnv) (delta : Option PyVal)
    (finish_reason : Option String) : PyVal :=
  .dict [("id", .str env.chat_completion_id),
         ("object", .str "chat.completion.chunk"),
         ("created", .int env.created),
         ("model", .str env.inbound_model),
         ("choices", .list [.dict
           [("index", .int 0),
            ("delta", delta.getD (.dict [])),
            ("finish_reason",
              match finish_reason with
              | Option.some r => .str r
              | Option.none => PyVal.none)]])]

/-- Python whitespace stripped by `bytes.strip` / `str.strip`. -/
def isPySpace (c : Char) : Bool :=
  c = ' ' || c = '\t' || c = '\n' || c = '\r' || c = '\x0b' || c = '\x0c'

/-- Python `strip()` on a line. -/
def pyStrip (l : List Char) : List Char :=
  ((l.dropWhile isPySpace).reverse.dropWhile isPySpace).reverse

/-- `AnthropicResponseAdapter._parse_sse_line`: decode, strip, require the
`"data: "` prefix, then `json.loads` the remainder (`None` on failure). -/
def parse_sse_line (line : List Char) : Option PyVal :=
  let line_str := pyStrip line
  if line_str.take 6 = "data: ".toList then
    jsonLoads (line_str.drop 6)
  else
    Option.none

/-- `AnthropicResponseAdapter._handle_anthropic_event`: dispatch one parsed
event, returning the chunk to emit (if any) and the updated
`_tool_calls_count`.  Attribute accesses on non-dict values raise. -/
def handle_anthropic_event (env : StreamEnv) (count : Int) (event : PyVal) :
    Except PErr (Option PyVal × Int) :=
  match event.attrGet "type" with
  | .error e => .error e
  | .ok event_type =>
    if event_type.eqStr "message_start" then
      .ok (Option.some (build_completion_chunk env
        (Option.some (.dict [("role", .str "assistant"), ("content", .str "")]))
        Option.none), count)
    else if event_type.eqStr "content_block_start" then
      match event.attrGetD "content_block" (.dict []) with
      | .error e => .error e
      | .ok content_block =>
        match content_block.attrGet "type" with
        | .error e => .error e
        | .ok block_type =>
          if block_type.eqStr "tool_use" then
            let count2 := count + 1
            match content_block.attrGetD "id" (.str ""),
                  content_block.attrGetD "name" (.str "") with
            | .ok cid, .ok cname =>
              .ok (Option.some (build_completion_chunk env
                (Option.some (.dict [("tool_calls", .list [.dict
                  [("index", .int (count2 - 1)),
                   ("id", cid),
                   ("type", .str "function"),
                   ("function", .dict [("name", cname),
                                       ("arguments", .str "")])]])]))
                Option.none), count2)
            | .error e, _ => .error e
            | _, .error e => .error e
          else if block_type.eqStr "thinking" then
            .ok (Option.some (build_completion_chunk env
              (Option.some (.dict [("thinking", .str "")])) Option.none), count)
          else
            .ok (Option.none, count)
    else if event_type.eqStr "content_block_delta" then
      match event.attrGetD "delta" (.dict []) with
      | .error e => .error e
      | .ok delta =>
        match delta.attrGet "type" with
        | .error e => .error e
        | .ok delta_type =>
          if delta_type.eqStr "text_delta" then
            match delta.attrGetD "text" (.str "") with
            | .error e => .error e
            | .ok text =>
              .ok (Option.some (build_completion_chunk env
                (Option.some (.dict [("content", text)])) Option.none), count)
          else if delta_type.eqStr "thinking_delta" then
            match delta.attrGetD "thinking" (.str "") with
            | .error e => .error e
            | .ok thinking =>
              .ok (Option.some (build_completion_chunk env
                (Option.some (.dict [("thinking", thinking)])) Option.none), count)
          else if delta_type.eqStr "input_json_delta" then
            match delta.attrGetD "partial_json" (.str "") with
            | .error e => .error e
            | .ok partial_json =>
              .ok (Option.some (build_completion_chunk env
                (Option.some (.dict [("tool_calls", .list [.dict
                  [("index", .int (count - 1)),
                   ("function", .dict [("arguments", partial_json)])]])]))
                Option.none), count)
          else
            .ok (Option.none, count)
    else if event_type.eqStr "message_delta" then
      match event.attrGetD "delta" (.dict []) with
      | .error e => .error e
      | .ok delta =>
        match delta.attrGet "stop_reason" with
        | .error e => .error e
        | .ok stop_reason =>
          if stop_reason.eqStr "end_turn" then
            .ok (Option.some (build_completion_chunk env Option.none
              (Option.some "stop")), count)
          else if stop_reason.eqStr "tool_use" then
            .ok (Option.some (build_completion_chunk env Option.none
              (Option.some "tool_calls")), count)
          else
            .ok (Option.none, count)
    else
      .ok (Option.none, count)

/-- One iteration of the line loop in `adapt.generate`: skip blank lines,
parse, skip falsy payloads, bump `events` under `LOG_COMPLETION`, dispatch,
and emit the produced chunk when truthy.  A raised dispatch error aborts
the generator (third component). -/
def processLine (env : StreamEnv) (ms : MSt) (line : List Char) :
    MSt × List PyVal × Option PErr :=
  if (pyStrip line).isEmpty then (ms, [], Option.none)
  else
    match parse_sse_line line with
    | Option.none => (ms, [], Option.none)
    | Option.some event_data =>
      if !event_data.truthy then (ms, [], Option.none)
      else
        let ms1 : MSt :=
          if env.log_completion then
            { ms with events := ms.events + 1 }
          else ms
        match handle_anthropic_event env ms1.tool_calls_count event_data with
        | .error e => (ms1, [], Option.some e)
        | .ok (chunk_dict, count2) =>
          let ms2 : MSt := { tool_calls_count := count2, events := ms1.events }
          match chunk_dict with
          | Option.some c => if c.truthy then (ms2, [c], Option.none)
                             else (ms2, [], Option.none)
          | Option.none => (ms2, [], Option.none)

/-- All complete (newline-terminated) lines of a buffer, in order, together
with the trailing remainder after the last newline — exactly the lines the
`while b"\n" in buffer` loop splits off, and the buffer it leaves. -/
def splitAllLines : List Char → List (List Char) × List Char
  | [] => ([], [])
  | c :: cs =>
    let p := splitAllLines cs
    if c = '\n' then ([] :: p.1, p.2)
    else
      match p.1 with
      | [] => ([], c :: p.2)
      | l :: ls => ((c :: l) :: ls, p.2)

/-- Process a sequence of extracted lines in order, stopping early when a
line's dispatch raises (the generator dies on that exception). -/
def runLines (env : StreamEnv) (ms : MSt) :
    List (List Char) → MSt × List PyVal × Option PErr
  | [] => (ms, [], Option.none)
  | line :: rest =>
    match processLine env ms line with
    | (ms1, out1, Option.some e) => (ms1, out1, Option.some e)
    | (ms1, out1, Option.none) =>
      let r := runLines env ms1 rest
      (r.1, out1 ++ r.2.1, r.2.2)

/-- The inner `while b"\n" in buffer` loop of `adapt.generate`: extract and
process complete lines in order (the loop body never touches the buffer, so
splitting all lines first is the same computation), stopping early when a
line's dispatch raises.  Returns the final state, the leftover buffer (dead
state when an error aborted the generator), the chunks emitted, and the
error, if any. -/
def drain (env : StreamEnv) (ms : MSt) (buf : List Char) :
    MSt × List Char × List PyVal × Option PErr :=
  let p := splitAllLines buf
  let q := runLines env ms p.1
  (q.1, p.2, q.2.1, q.2.2)

/-- The outer `for chunk in upstream_resp.iter_content(...)` loop:
append each arriving byte chunk to the buffer and drain complete lines.
A raised error stops the iteration. -/
def consumeStream (env : StreamEnv) (ms : MSt) (buf : List Char) :
    List (List Char) → MSt × List PyVal × Option PErr
  | [] => (ms, [], Option.none)
  | c :: cs =>
    match h : drain env ms (buf ++ c) with
    | (ms1, buf1, out1, Option.some e) => (ms1, out1, Option.some e)
    | (ms1, buf1, out1, Option.none) =>
      let r := consumeStream env ms1 buf1 cs
      (r.1, out1 ++ r.2.1, r.2.2)

/-- `adapt.generate` up to chunk dicts: run the stream from fresh state,
then — when the loop was not aborted — append the final chunk gated on
`events > 0` (reason `stop` when `_tool_calls_count == 0`, else
`tool_calls`). -/
def runGenerate (env : StreamEnv) (cs : List (List Char)) :
    List PyVal × Option PErr :=
  match consumeStream env ⟨0, 0⟩ [] cs with
  | (ms, out, Option.some e) => (out, Option.some e)
  | (ms, out, Option.none) =>
    (out ++
      (if ms.events > 0 then
        [build_completion_chunk env Option.none
          (Option.some (if ms.tool_calls_count = 0 then "stop" else "tool_calls"))]
      else []), Option.none)

/-- The byte frames yielded by `adapt.generate`: each chunk as
`data: <json.dumps(chunk)>\n\n`, then the `data: [DONE]\n\n` sentinel —
unless the generator aborted with a raised error, which also skips the
sentinel. -/
def generate (env : StreamEnv) (cs : List (List Char)) : List String :=
  match runGenerate env cs with
  | (out, Option.none) =>
    out.map (fun c => "data: " ++ jsonDumps c ++ "\n\n") ++ ["data: [DONE]\n\n"]
  | (out, Option.some _) =>
    out.map (fun c => "data: " ++ jsonDumps c ++ "\n\n")

/-- The event-dispatch loop of `adapt.generate` applied to an explicit
sequence of (already parsed, truthy) data payloads: folds
`_handle_anthropic_event` over the events, collecting emitted chunks and
stopping at a raised error. -/
def runEvents (env : StreamEnv) (count : Int) :
    List PyVal → Int × List PyVal × Option PErr
  | [] => (count, [], Option.none)
  | ev :: rest =>
    match handle_anthropic_event env count ev with
    | .error e => (count, [], Option.some e)
    | .ok (chunk_dict, count1) =>
      let r := runEvents env count1 rest
      (r.1,
       (match chunk_dict with
        | Option.some c => if c.truthy then [c] else []
        | Option.none => []) ++ r.2.1,
       r.2.2)

/-! Structural lemmas about the line framer: extracting lines commutes with
the arrival boundaries of the byte chunks. -/

theorem runLines_append (env : StreamEnv) (ls2 : List (List Char)) :
    ∀ (ls1 : List (List Char)) (ms : MSt),
      runLines env ms (ls1 ++ ls2) =
        (match runLines env ms ls1 with
         | (ms1, o1, Option.some e) => (ms1, o1, Option.some e)
         | (ms1, o1, Option.none) =>
           let r := runLines env ms1 ls2
           (r.1, o1 ++ r.2.1, r.2.2)) := by
  intro ls1
  induction ls1 with
  | nil =>
    intro ms
    simp only [List.nil_append, runLines]
  | cons line rest ih =>
    intro ms
    simp only [List.cons_append, runLines]
    rcases hp : processLine env ms line with ⟨ms1, out1, perr⟩
    cases perr with
    | some e => simp
    | none =>
      simp only
      rw [show rest.append ls2 = rest ++ ls2 from rfl, ih ms1]
      rcases hq : runLines env ms1 rest with ⟨qms, qo, qe⟩
      cases qe with
      | some e2 => simp
      | none =>
        simp only
        rcases hr : runLines env qms ls2 with ⟨a, b, c2⟩
        simp [List.append_assoc]

theorem splitAllLines_append (b c : List Char) :
    splitAllLines (b ++ c) =
      ((splitAllLines b).1 ++ (splitAllLines ((splitAllLines b).2 ++ c)).1,
       (splitAllLines ((splitAllLines b).2 ++ c)).2) := by
  induction b with
  | nil => simp [splitAllLines]
  | cons a b ih =>
    by_cases ha : a = '\n'
    · subst ha
      simp only [List.cons_append, splitAllLines, reduceIte]
      rw [show b.append c = b ++ c from rfl, ih]
    · simp only [List.cons_append, splitAllLines, if_neg ha]
      rw [show b.append c = b ++ c from rfl, ih]
      rcases hb : splitAllLines b with ⟨lsb, remb⟩
      cases lsb with
      | nil =>
        simp only [List.nil_append]
        rcases hq : splitAllLines (remb ++ c) with ⟨lsq, remq⟩
        have harw : remb.append c = remb ++ c := rfl
        cases lsq with
        | nil =>
          have h2 : splitAllLines ((a :: remb) ++ c) = ([], a :: remq) := by
            simp only [List.cons_append, splitAllLines, if_neg ha, harw, hq]
          rw [h2]
        | cons ql qls =>
          have h2 : splitAllLines ((a :: remb) ++ c) = ((a :: ql) :: qls, remq) := by
            simp only [List.cons_append, splitAllLines, if_neg ha, harw, hq]
          rw [h2]
      | cons l ls =>
        simp

theorem splitAllLines_snd_fixed :
    ∀ buf : List Char,
      splitAllLines ((splitAllLines buf).2) = ([], (splitAllLines buf).2) := by
  intro buf
  induction buf with
  | nil => simp [splitAllLines]
  | cons a b ih =>
    by_cases ha : a = '\n'
    · subst ha
      simpa [splitAllLines] using ih
    · simp only [splitAllLines, if_neg ha]
      rcases hb : splitAllLines b with ⟨lsb, remb⟩
      rw [hb] at ih
      cases lsb with
      | nil =>
        simp only
        simp only [splitAllLines, if_neg ha] at ih ⊢
        rw [ih]
      | cons l ls => simpa using ih

theorem consumeStream_eq_drain (env : StreamEnv) :
    ∀ (cs : List (List Char)) (ms : MSt) (buf : List Char),
      (splitAllLines buf).1 = [] →
      consumeStream env ms buf cs =
        ((drain env ms (buf ++ cs.flatten)).1,
         (drain env ms (buf ++ cs.flatten)).2.2.1,
         (drain env ms (buf ++ cs.flatten)).2.2.2) := by
  intro cs
  induction cs with
  | nil =>
    intro ms buf h
    rw [show (([] : List (List Char)).flatten) = ([] : List Char) from rfl]
    rw [List.append_nil]
    simp [consumeStream, drain, h, runLines]
  | cons c cs ih =>
    intro ms buf h
    have hjoin : buf ++ (c :: cs).flatten = (buf ++ c) ++ cs.flatten := by
      simp [List.flatten]
    rw [hjoin]
    have hsplit := splitAllLines_append (buf ++ c) cs.flatten
    have hfix : (splitAllLines ((splitAllLines (buf ++ c)).2)).1 = [] := by
      rw [splitAllLines_snd_fixed (buf ++ c)]
    rcases hL : splitAllLines (buf ++ c) with ⟨ls, rem⟩
    rw [hL] at hsplit hfix
    simp only at hsplit hfix
    rcases hq : runLines env ms ls with ⟨qms, qout, qe⟩
    have hdrain : drain env ms (buf ++ c) = (qms, rem, qout, qe) := by
      simp [drain, hL, hq]
    cases qe with
    | some e =>
      have h1 : consumeStream env ms buf (c :: cs) = (qms, qout, Option.some e) := by
        simp only [consumeStream]
        split
        · rename_i ms1 buf1 out1 e1 hdr
          rw [hdrain] at hdr
          obtain ⟨rfl, rfl, rfl, rfl⟩ := by simpa using hdr
          rfl
        · rename_i ms1 buf1 out1 hdr
          rw [hdrain] at hdr
          simp at hdr
      rw [h1]
      have h2 : drain env ms ((buf ++ c) ++ cs.flatten)
          = (qms, (splitAllLines (rem ++ cs.flatten)).2, qout, Option.some e) := by
        simp only [drain, hsplit]
        rw [runLines_append env _ ls ms, hq]
      rw [h2]
    | none =>
      have h1 : consumeStream env ms buf (c :: cs) =
          ((consumeStream env qms rem cs).1,
           qout ++ (consumeStream env qms rem cs).2.1,
           (consumeStream env qms rem cs).2.2) := by
        simp only [consumeStream]
        split
        · rename_i ms1 buf1 out1 e1 hdr
          rw [hdrain] at hdr
          simp at hdr
        · rename_i ms1 buf1 out1 hdr
          rw [hdrain] at hdr
          obtain ⟨rfl, rfl, rfl⟩ := by simpa using hdr
          rfl
      rw [h1, ih qms rem hfix]
      have h2 : drain env ms ((buf ++ c) ++ cs.flatten)
          = ((runLines env qms (splitAllLines (rem ++ cs.flatten)).1).1,
             (splitAllLines (rem ++ cs.flatten)).2,
             qout ++ (runLines env qms (splitAllLines (rem ++ cs.flatten)).1).2.1,
             (runLines env qms (splitAllLines (rem ++ cs.flatten)).1).2.2) := by
        simp only [drain, hsplit]
        rw [runLines_append env _ ls ms, hq]
      rw [h2]
      simp [drain]

/-! Observation helpers for stating claims about emitted chunks, and sample
stream environments for concrete runs. -/

/-- Finish reason carried by an emitted chunk: `choices[0]["finish_reason"]`. -/
def chunkFinishReason (c : PyVal) : PyVal :=
  match qget c "choices" with
  | .list (first :: _) => qget first "finish_reason"
  | _ => PyVal.none

/-- Tool-call index referenced by an emitted chunk:
`choices[0]["delta"]["tool_calls"][0]["index"]`. -/
def chunkToolIndex (c : PyVal) : PyVal :=
  match qget c "choices" with
  | .list (first :: _) =>
    match qget (qget first "delta") "tool_calls" with
    | .list (tc :: _) => qget tc "index"
    | _ => PyVal.none
  | _ => PyVal.none

/-- A sample stream environment with `LOG_COMPLETION` disabled. -/
def sampleEnv : StreamEnv :=
  ⟨"chatcmpl-abc123", 1700000000, "claude-sonnet-4-5", false⟩

/-- A sample stream environment with `LOG_COMPLETION` enabled. -/
def sampleEnvLog : StreamEnv :=
  ⟨"chatcmpl-abc123", 1700000000, "claude-sonnet-4-5", true⟩

/-- An upstream stream that ends without any finish-reason event. -/
def c1NoFinishStream : List (List Char) :=
  [("data: \x7b\"type\": \"message_start\"\x7d\n").toList]

/-- An upstream stream that ends after a proper `message_delta` finish. -/
def c1FinishedStream : List (List Char) :=
  [("data: \x7b\"type\": \"message_start\"\x7d\ndata: \x7b\"type\": \"message_delta\", \"delta\": \x7b\"stop_reason\": \"end_turn\"\x7d\x7d\n").toList]

/-- C1: the claim says that a stream ending without a finish-reason chunk
gets exactly one synthesized finish-reason chunk, that no extra one is
emitted when one was already sent, and that this is independent of
`LOG_COMPLETION`.  The code gates the synthesized chunk on `events > 0`,
but `events` is only ever incremented under `LOG_COMPLETION`, so: with
logging disabled a finish-less stream gets NO synthesized finish chunk at
all (first two conjuncts), and with logging enabled a stream that already
carried a finish chunk gets an extra synthesized one (third conjunct). -/
theorem C1_final_chunk_depends_on_logging :
    ((runGenerate sampleEnv c1NoFinishStream).1.map chunkFinishReason
        = [PyVal.none]
      ∧ (runGenerate sampleEnv c1NoFinishStream).2 = Option.none)
    ∧ (runGenerate sampleEnvLog c1FinishedStream).1.map chunkFinishReason
        = [PyVal.none, PyVal.str "stop", PyVal.str "stop"] := by
  refine ⟨⟨?_, ?_⟩, ?_⟩ <;> rfl

/-- An upstream stream whose finish event is followed by a content event
and then by a truthy non-dict data payload (which makes the dispatcher
raise `AttributeError`). -/
def c2IrregularStream : List (List Char) :=
  [("data: \x7b\"type\": \"message_delta\", \"delta\": \x7b\"stop_reason\": \"end_turn\"\x7d\x7d\ndata: \x7b\"type\": \"content_block_delta\", \"delta\": \x7b\"type\": \"text_delta\", \"text\": \"x\"\x7d\x7d\ndata: 1\n").toList]

/-- C2 (counterexample): at this concrete upstream stream the translator
emits a finish-reason chunk followed by a content chunk (so the
finish-reason chunk is not the last content-bearing chunk), the dispatch
then raises `AttributeError` on the truthy non-dict payload `1`, and the
emitted sequence does NOT end with the `data: [DONE]` sentinel — refuting
both conjuncts of the claim as stated. -/
theorem C2_counterexample :
    (runGenerate sampleEnv c2IrregularStream).1.map chunkFinishReason
        = [PyVal.str "stop", PyVal.none]
    ∧ (runGenerate sampleEnv c2IrregularStream).2
        = Option.some PErr.attributeError
    ∧ (generate sampleEnv c2IrregularStream).getLast?
        ≠ Option.some "data: [DONE]\n\n" := by
  refine ⟨by rfl, by rfl, by decide⟩

/-- C2 (amended): whenever consuming the upstream byte stream raises no
error (in particular on every stream whose truthy data payloads are
well-shaped objects), the emitted byte sequence ends with the literal
`data: [DONE]\n\n` sentinel — even when the upstream closes abruptly
without any finish signal.  A chunk carrying a finish-reason need not be
the last content-bearing chunk (see the counterexample), so that part of
the claim is dropped. -/
theorem C2_sentinel_last (env : StreamEnv) (cs : List (List Char))
    (h : (runGenerate env cs).2 = Option.none) :
    (generate env cs).getLast? = Option.some "data: [DONE]\n\n" := by
  unfold generate
  rcases hr : runGenerate env cs with ⟨out, err⟩
  rw [hr] at h
  simp only at h
  subst h
  simp

/-- Witness for `C2_sentinel_last` at a concrete error-free stream. -/
theorem C2_sentinel_last_witness :
    (generate sampleEnv c1NoFinishStream).getLast?
      = Option.some "data: [DONE]\n\n" :=
  C2_sentinel_last sampleEnv c1NoFinishStream (by rfl)

/-- Helper for C4: the chunk-dict sequence and abort status of
`adapt.generate` depend only on the concatenation of the upstream byte
chunks. -/
theorem runGenerate_flatten (env : StreamEnv) (cs ds : List (List Char))
    (h : cs.flatten = ds.flatten) : runGenerate env cs = runGenerate env ds := by
  unfold runGenerate
  rw [consumeStream_eq_drain env cs ⟨0, 0⟩ [] rfl,
      consumeStream_eq_drain env ds ⟨0, 0⟩ [] rfl]
  simp only [List.nil_append, h]

/-- C4: any two splittings of the same upstream byte sequence into arrival
chunks produce an identical sequence of emitted frames (the canonical
chunks and the sentinel). -/
theorem C4_chunking_invariance (env : StreamEnv) (cs ds : List (List Char))
    (h : cs.flatten = ds.flatten) : generate env cs = generate env ds := by
  unfold generate
  rw [runGenerate_flatten env cs ds h]

/-- Witness for `C4_chunking_invariance`: the same bytes split at a line
terminator versus mid-line. -/
theorem C4_chunking_invariance_witness :
    generate sampleEnv
        [("data: \x7b\"type\": \"message_start\"\x7d\n").toList]
      = generate sampleEnv
        [("data: \x7b\"ty").toList, ("pe\": \"message_start\"\x7d\n").toList] :=
  C4_chunking_invariance sampleEnv _ _ (by rfl)

/-! Embedding-level predicates and lemmas for the tool-call index claim. -/

/-- An event on which the dispatcher opens a tool-use block (type
`content_block_start` with a dict `content_block` of type `tool_use`). -/
def evOpensToolUse (ev : PyVal) : Bool :=
  (qget ev "type").eqStr "content_block_start"
    && (qgetD ev "content_block" (.dict [])).isDict
    && (qget (qgetD ev "content_block" (.dict [])) "type").eqStr "tool_use"

/-- The dispatcher increments `_tool_calls_count` exactly on tool-use
content-block starts, and leaves it unchanged on every other event it
handles without raising. -/
theorem handle_count (env : StreamEnv) (count : Int) (ev : PyVal)
    {o : Option PyVal} {c2 : Int}
    (h : handle_anthropic_event env count ev = .ok (o, c2)) :
    c2 = count + (if evOpensToolUse ev then 1 else 0) := by
  cases ev with
  | dict kvs =>
    rcases htv : (dictFind kvs "type").getD PyVal.none with _ | b | n | f | ts | xs | tkvs <;>
      simp only [handle_anthropic_event, PyVal.attrGet, PyVal.attrGetD, htv,
        PyVal.eqStr] at h
    case dict.none | dict.bool | dict.int | dict.float | dict.list | dict.dict =>
      simp_all [evOpensToolUse, qget, qgetD, htv, PyVal.eqStr]
    case dict.str =>
      by_cases h1 : ts = "message_start"
      · subst h1
        rw [if_pos (beq_self_eq_true _)] at h
        obtain ⟨-, rfl⟩ := by simpa using h
        simp [evOpensToolUse, qget, qgetD, htv, PyVal.eqStr]
      · rw [if_neg (by simpa using h1)] at h
        by_cases h2 : ts = "content_block_start"
        · subst h2
          rw [if_pos (beq_self_eq_true _)] at h
          rcases hcb : (dictFind kvs "content_block").getD (PyVal.dict [])
            with _ | b | n | f | cbs | cbxs | cbkvs <;> rw [hcb] at h
          · simp at h
          · simp at h
          · simp at h
          · simp at h
          · simp at h
          · simp at h
          · try simp only [] at h
            rcases hbt : (dictFind cbkvs "type").getD PyVal.none
              with _ | b | n | f | bts | btxs | btkvs <;> rw [hbt] at h <;>
              try simp only [] at h
            pick_goal 5
            · by_cases hb1 : bts = "tool_use"
              · subst hb1
                rw [if_pos (beq_self_eq_true _)] at h
                obtain ⟨-, rfl⟩ := by simpa using h
                simp [evOpensToolUse, qget, qgetD, htv, hcb, hbt, PyVal.eqStr,
                  PyVal.isDict]
              · rw [if_neg (by simpa using hb1)] at h
                have hopens : evOpensToolUse (PyVal.dict kvs) = false := by
                  simp [evOpensToolUse, qget, qgetD, htv, hcb, hbt, PyVal.eqStr,
                    PyVal.isDict, hb1]
                rw [hopens]
                simp only [Bool.false_eq_true, if_false, add_zero]
                by_cases hb2 : bts = "thinking"
                · subst hb2
                  rw [if_pos (beq_self_eq_true _)] at h
                  obtain ⟨-, h9⟩ := by simpa using h
                  omega
                · rw [if_neg (by simpa using hb2)] at h
                  obtain ⟨-, h9⟩ := by simpa using h
                  omega
            all_goals
              obtain ⟨-, rfl⟩ := by simpa using h
            all_goals
              simp [evOpensToolUse, qget, qgetD, htv, hcb, hbt, PyVal.eqStr,
                PyVal.isDict]
        · rw [if_neg (by simpa using h2)] at h
          have hopens : evOpensToolUse (PyVal.dict kvs) = false := by
            simp [evOpensToolUse, qget, qgetD, htv, PyVal.eqStr, h2]
          rw [hopens]
          simp only [Bool.false_eq_true, if_false, add_zero]
          by_cases h3 : ts = "content_block_delta"
          · subst h3
            rw [if_pos (beq_self_eq_true _)] at h
            rcases hdl : (dictFind kvs "delta").getD (PyVal.dict [])
              with _ | b | n | f | ds | dxs | dkvs <;> rw [hdl] at h
            · simp at h
            · simp at h
            · simp at h
            · simp at h
            · simp at h
            · simp at h
            · try simp only [] at h
              rcases hdt : (dictFind dkvs "type").getD PyVal.none
                with _ | b | n | f | dts | dtxs | dtkvs <;> rw [hdt] at h <;>
                try simp only [] at h
              pick_goal 5
              · by_cases hd1 : dts = "text_delta"
                · subst hd1
                  rw [if_pos (beq_self_eq_true _)] at h
                  obtain ⟨-, h9⟩ := by simpa using h
                  omega
                · rw [if_neg (by simpa using hd1)] at h
                  by_cases hd2 : dts = "thinking_delta"
                  · subst hd2
                    rw [if_pos (beq_self_eq_true _)] at h
                    obtain ⟨-, h9⟩ := by simpa using h
                    omega
                  · rw [if_neg (by simpa using hd2)] at h
                    by_cases hd3 : dts = "input_json_delta"
                    · subst hd3
                      rw [if_pos (beq_self_eq_true _)] at h
                      obtain ⟨-, h9⟩ := by simpa using h
                      omega
                    · rw [if_neg (by simpa using hd3)] at h
                      obtain ⟨-, h9⟩ := by simpa using h
                      omega
              all_goals
                obtain ⟨-, h9⟩ := by simpa using h
              all_goals omega
          · rw [if_neg (by simpa using h3)] at h
            by_cases h4 : ts = "message_delta"
            · subst h4
              rw [if_pos (beq_self_eq_true _)] at h
              rcases hdl : (dictFind kvs "delta").getD (PyVal.dict [])
                with _ | b | n | f | ds | dxs | dkvs <;> rw [hdl] at h
              · simp at h
              · simp at h
              · simp at h
              · simp at h
              · simp at h
              · simp at h
              · try simp only [] at h
                rcases hsr : (dictFind dkvs "stop_reason").getD PyVal.none
                  with _ | b | n | f | srs | srxs | srkvs <;> rw [hsr] at h <;>
                  try simp only [] at h
                pick_goal 5
                · by_cases hs1 : srs = "end_turn"
                  · subst hs1
                    rw [if_pos (beq_self_eq_true _)] at h
                    obtain ⟨-, h9⟩ := by simpa using h
                    omega
                  · rw [if_neg (by simpa using hs1)] at h
                    by_cases hs2 : srs = "tool_use"
                    · subst hs2
                      rw [if_pos (beq_self_eq_true _)] at h
                      obtain ⟨-, h9⟩ := by simpa using h
                      omega
                    · rw [if_neg (by simpa using hs2)] at h
                      obtain ⟨-, h9⟩ := by simpa using h
                      omega
                all_goals
                  obtain ⟨-, h9⟩ := by simpa using h
                all_goals omega
            · rw [if_neg (by simpa using h4)] at h
              obtain ⟨-, h9⟩ := by simpa using h
              omega
  | none => simp [handle_anthropic_event, PyVal.attrGet] at h
  | bool b => simp [handle_anthropic_event, PyVal.attrGet] at h
  | int n => simp [handle_anthropic_event, PyVal.attrGet] at h
  | float f => simp [handle_anthropic_event, PyVal.attrGet] at h
  | str s => simp [handle_anthropic_event, PyVal.attrGet] at h
  | list xs => simp [handle_anthropic_event, PyVal.attrGet] at h

/-- An event carrying a tool-call argument fragment (type
`content_block_delta` with a dict delta of type `input_json_delta`). -/
def evIsArgDelta (ev : PyVal) : Bool :=
  (qget ev "type").eqStr "content_block_delta"
    && (qgetD ev "delta" (.dict [])).isDict
    && (qget (qgetD ev "delta" (.dict [])) "type").eqStr "input_json_delta"

/-- Dispatching an argument-fragment event emits a chunk referencing tool
index `_tool_calls_count - 1` and leaves the counter unchanged. -/
theorem handle_argDelta (env : StreamEnv) (count : Int) (ev : PyVal)
    (hev : evIsArgDelta ev = true) :
    handle_anthropic_event env count ev
      = .ok (Option.some (build_completion_chunk env
          (Option.some (.dict [("tool_calls", .list [.dict
             [("index", .int (count - 1)),
              ("function", .dict [("arguments",
                 qgetD (qgetD ev "delta" (.dict [])) "partial_json" (.str ""))])]])]))
          Option.none), count) := by
  cases ev with
  | dict kvs =>
    rcases htv : (dictFind kvs "type").getD PyVal.none with _ | b | n | f | ts | xs | tkvs <;>
      simp only [evIsArgDelta, qget, qgetD, htv, PyVal.eqStr, PyVal.isDict,
        Bool.and_eq_true, Bool.false_eq_true, false_and, and_false] at hev
    case dict.str =>
      obtain ⟨⟨hts, hdict⟩, hdt⟩ := hev
      have hts2 : ts = "content_block_delta" := by simpa using hts
      subst hts2
      rcases hdl : (dictFind kvs "delta").getD (PyVal.dict [])
        with _ | b | n | f | ds | dxs | dkvs <;> rw [hdl] at hdict hdt <;>
        simp only [PyVal.isDict, Bool.false_eq_true] at hdict
      simp only [] at hdt
      rcases hdt2 : (dictFind dkvs "type").getD PyVal.none
        with _ | b | n | f | dts | dtxs | dtkvs <;> rw [hdt2] at hdt <;>
        simp only [PyVal.eqStr, Bool.false_eq_true] at hdt
      have hdts : dts = "input_json_delta" := by simpa using hdt
      subst hdts
      simp only [handle_anthropic_event, PyVal.attrGet, PyVal.attrGetD, htv,
        PyVal.eqStr, hdl, hdt2]
      rw [if_neg (by decide), if_neg (by decide), if_pos (beq_self_eq_true _),
        if_neg (by decide), if_neg (by decide), if_pos (beq_self_eq_true _)]
      simp [qgetD, hdl]
  | none => simp [evIsArgDelta, qget, qgetD, PyVal.eqStr, PyVal.isDict] at hev
  | bool b => simp [evIsArgDelta, qget, qgetD, PyVal.eqStr, PyVal.isDict] at hev
  | int n => simp [evIsArgDelta, qget, qgetD, PyVal.eqStr, PyVal.isDict] at hev
  | float f => simp [evIsArgDelta, qget, qgetD, PyVal.eqStr, PyVal.isDict] at hev
  | str s => simp [evIsArgDelta, qget, qgetD, PyVal.eqStr, PyVal.isDict] at hev
  | list xs => simp [evIsArgDelta, qget, qgetD, PyVal.eqStr, PyVal.isDict] at hev

/-- Dispatching a tool-use block start emits the announcement chunk with
the freshly allocated index and increments the counter. -/
theorem handle_open (env : StreamEnv) (count : Int) (ev : PyVal)
    (hev : evOpensToolUse ev = true) :
    handle_anthropic_event env count ev
      = .ok (Option.some (build_completion_chunk env
          (Option.some (.dict [("tool_calls", .list [.dict
             [("index", .int (count + 1 - 1)),
              ("id", qgetD (qgetD ev "content_block" (.dict [])) "id" (.str "")),
              ("type", .str "function"),
              ("function", .dict
                 [("name", qgetD (qgetD ev "content_block" (.dict [])) "name" (.str "")),
                  ("arguments", .str "")])]])]))
          Option.none), count + 1) := by
  cases ev with
  | dict kvs =>
    rcases htv : (dictFind kvs "type").getD PyVal.none with _ | b | n | f | ts | xs | tkvs <;>
      simp only [evOpensToolUse, qget, qgetD, htv, PyVal.eqStr, PyVal.isDict,
        Bool.and_eq_true, Bool.false_eq_true, false_and, and_false] at hev
    case dict.str =>
      obtain ⟨⟨hts, hdict⟩, hbt⟩ := hev
      have hts2 : ts = "content_block_start" := by simpa using hts
      subst hts2
      rcases hcb : (dictFind kvs "content_block").getD (PyVal.dict [])
        with _ | b | n | f | cbs | cbxs | cbkvs <;> rw [hcb] at hdict hbt <;>
        simp only [PyVal.isDict, Bool.false_eq_true] at hdict
      try simp only [] at hbt
      rcases hbt2 : (dictFind cbkvs "type").getD PyVal.none
        with _ | b | n | f | bts | btxs | btkvs <;> rw [hbt2] at hbt <;>
        simp only [PyVal.eqStr, Bool.false_eq_true] at hbt
      have hbts : bts = "tool_use" := by simpa using hbt
      subst hbts
      simp only [handle_anthropic_event, PyVal.attrGet, PyVal.attrGetD, htv,
        PyVal.eqStr, hcb, hbt2]
      rw [if_neg (by decide), if_pos (beq_self_eq_true _)]
      try simp only []
      rw [if_pos (beq_self_eq_true _)]
      simp [qgetD, hcb]
  | none => simp [evOpensToolUse, qget, qgetD, PyVal.eqStr, PyVal.isDict] at hev
  | bool b => simp [evOpensToolUse, qget, qgetD, PyVal.eqStr, PyVal.isDict] at hev
  | int n => simp [evOpensToolUse, qget, qgetD, PyVal.eqStr, PyVal.isDict] at hev
  | float f => simp [evOpensToolUse, qget, qgetD, PyVal.eqStr, PyVal.isDict] at hev
  | str s => simp [evOpensToolUse, qget, qgetD, PyVal.eqStr, PyVal.isDict] at hev
  | list xs => simp [evOpensToolUse, qget, qgetD, PyVal.eqStr, PyVal.isDict] at hev

theorem runEvents_append (env : StreamEnv) (l2 : List PyVal) :
    ∀ (l1 : List PyVal) (count : Int),
      runEvents env count (l1 ++ l2) =
        (match runEvents env count l1 with
         | (c1, o1, Option.some e) => (c1, o1, Option.some e)
         | (c1, o1, Option.none) =>
           let r := runEvents env c1 l2
           (r.1, o1 ++ r.2.1, r.2.2)) := by
  intro l1
  induction l1 with
  | nil =>
    intro count
    simp only [List.nil_append, runEvents]
  | cons ev rest ih =>
    intro count
    simp only [List.cons_append, runEvents]
    rcases hh : handle_anthropic_event env count ev with e | p
    · simp
    · obtain ⟨c?, count1⟩ := p
      simp only
      rw [show rest.append l2 = rest ++ l2 from rfl, ih count1]
      rcases hq : runEvents env count1 rest with ⟨qc, qo, qe⟩
      cases qe with
      | some e2 => simp
      | none =>
        simp only
        rcases hr : runEvents env qc l2 with ⟨a, b2, c3⟩
        simp [List.append_assoc]

theorem runEvents_count (env : StreamEnv) :
    ∀ (evs : List PyVal) (count : Int),
      (runEvents env count evs).2.2 = Option.none →
      (runEvents env count evs).1
        = count + (evs.countP (fun e => evOpensToolUse e) : Int) := by
  intro evs
  induction evs with
  | nil => intro count h; simp [runEvents]
  | cons ev rest ih =>
    intro count h
    simp only [runEvents] at h ⊢
    rcases hh : handle_anthropic_event env count ev with e | p
    · rw [hh] at h
      simp at h
    · obtain ⟨c?, count1⟩ := p
      rw [hh] at h
      try simp only [] at h ⊢
      have hc := handle_count env count ev hh
      have hrec := ih count1 h
      rw [hrec, hc, List.countP_cons]
      by_cases ho : evOpensToolUse ev
      · simp only [ho, if_true, reduceIte]
        push_cast
        omega
      · simp only [ho, if_false, Bool.false_eq_true, reduceIte]
        push_cast
        omega

theorem runEvents_prefix_ok (env : StreamEnv) (l1 l2 : List PyVal) (c : Int)
    (h : (runEvents env c (l1 ++ l2)).2.2 = Option.none) :
    (runEvents env c l1).2.2 = Option.none := by
  rw [runEvents_append env l2 l1 c] at h
  rcases hq : runEvents env c l1 with ⟨qc, qo, qe⟩
  rw [hq] at h
  cases qe with
  | none => rfl
  | some e => simp at h

/-- C3: in any dispatched event sequence, if event `i` opens a tool-use
block and event `j > i` is an argument-fragment event with no further
tool-use block opened in between, and dispatching raises no error up to
`j`, then the chunk emitted at `j` references exactly the index that the
announcement chunk at `i` carried, namely the number of tool-use blocks
opened before `i` (indices start at 0 and increase by one per block). -/
theorem C3_tool_call_index_stable (env : StreamEnv) (evs : List PyVal)
    (i j : Nat) (hij : i < j) (hj : j < evs.length)
    (hopen : evOpensToolUse (evs.get ⟨i, Nat.lt_trans hij hj⟩) = true)
    (hdelta : evIsArgDelta (evs.get ⟨j, hj⟩) = true)
    (hbetween : ∀ (k : Nat) (hk : k < evs.length), i < k → k < j →
      evOpensToolUse (evs.get ⟨k, hk⟩) = false)
    (hok : (runEvents env 0 (evs.take (j+1))).2.2 = Option.none) :
    (∃ c, handle_anthropic_event env
          (runEvents env 0 (evs.take j)).1 (evs.get ⟨j, hj⟩)
        = .ok (Option.some c, (runEvents env 0 (evs.take j)).1)
      ∧ chunkToolIndex c
          = PyVal.int (((evs.take i).countP (fun e => evOpensToolUse e) : Int)))
    ∧ (∃ ca, handle_anthropic_event env
          (runEvents env 0 (evs.take i)).1 (evs.get ⟨i, Nat.lt_trans hij hj⟩)
        = .ok (Option.some ca, (runEvents env 0 (evs.take i)).1 + 1)
      ∧ chunkToolIndex ca
          = PyVal.int (((evs.take i).countP (fun e => evOpensToolUse e) : Int))) := by
  have hi : i < evs.length := Nat.lt_trans hij hj
  have hopen2 : evOpensToolUse (evs[i]) = true := hopen
  -- take (j+1) = take j ++ [evs[j]]
  have htkj : evs.take (j+1) = evs.take j ++ [evs.get ⟨j, hj⟩] := by
    rw [List.take_succ]
    congr 1
    rw [List.getElem?_eq_getElem hj]
    rfl
  have hokj : (runEvents env 0 (evs.take j)).2.2 = Option.none := by
    rw [htkj] at hok
    exact runEvents_prefix_ok env _ _ 0 hok
  -- take j = take i ++ [evs[i]] ++ drop part
  have htki : evs.take j = evs.take (i+1) ++ ((evs.take j).drop (i+1)) := by
    have h1 : (evs.take j).take (i+1) = evs.take (i+1) := by
      rw [List.take_take]
      congr 1
      omega
    conv_lhs => rw [← List.take_append_drop (i+1) (evs.take j)]
    rw [h1]
  have htki2 : evs.take (i+1) = evs.take i ++ [evs.get ⟨i, hi⟩] := by
    rw [List.take_succ]
    congr 1
    rw [List.getElem?_eq_getElem hi]
    rfl
  have hoki : (runEvents env 0 (evs.take i)).2.2 = Option.none := by
    rw [htkj, htki, htki2] at hok
    rw [List.append_assoc, List.append_assoc] at hok
    exact runEvents_prefix_ok env _ _ 0 hok
  -- the count of opens in the middle segment is zero
  have hmid : ((evs.take j).drop (i+1)).countP (fun e => evOpensToolUse e) = 0 := by
    rw [List.countP_eq_zero]
    intro a ha
    rw [List.mem_iff_getElem] at ha
    obtain ⟨m, hm, hma⟩ := ha
    have hmlen : i + 1 + m < evs.length := by
      have := hm
      simp [List.length_drop, List.length_take] at this
      omega
    have hidx : ((evs.take j).drop (i+1))[m] = evs[i + 1 + m] := by
      rw [List.getElem_drop]
      rw [List.getElem_take]
    have hkj : i + 1 + m < j := by
      have := hm
      simp [List.length_drop, List.length_take] at this
      omega
    rw [hidx] at hma
    have := hbetween (i + 1 + m) hmlen (by omega) hkj
    rw [show evs.get ⟨i + 1 + m, hmlen⟩ = evs[i + 1 + m] from rfl] at this
    rw [hma] at this
    simp [this]
  -- counts
  have hcj : (runEvents env 0 (evs.take j)).1
      = ((evs.take i).countP (fun e => evOpensToolUse e) : Int) + 1 := by
    rw [runEvents_count env (evs.take j) 0 hokj]
    rw [htki, htki2, List.countP_append, List.countP_append, hmid]
    simp [List.countP_cons, hopen2]
    try push_cast
    try ring
    try omega
  have hci : (runEvents env 0 (evs.take i)).1
      = ((evs.take i).countP (fun e => evOpensToolUse e) : Int) := by
    rw [runEvents_count env (evs.take i) 0 hoki]
    omega
  constructor
  · have hh := handle_argDelta env
      ((runEvents env 0 (evs.take j)).1) (evs.get ⟨j, hj⟩) hdelta
    refine ⟨_, hh, ?_⟩
    rw [hcj]
    simp [chunkToolIndex, build_completion_chunk, qget, dictFind]
  · have hh := handle_open env
      ((runEvents env 0 (evs.take i)).1) (evs.get ⟨i, hi⟩) hopen
    refine ⟨_, hh, ?_⟩
    rw [hci]
    simp [chunkToolIndex, build_completion_chunk, qget, dictFind]

/-- A concrete event sequence with two tool-use blocks, each followed by
one argument fragment. -/
def c3Events : List PyVal :=
  [ .dict [("type", .str "content_block_start"),
           ("content_block", .dict [("type", .str "tool_use"),
                                    ("id", .str "tool-1"),
                                    ("name", .str "search")])],
    .dict [("type", .str "content_block_delta"),
           ("delta", .dict [("type", .str "input_json_delta"),
                            ("partial_json", .str "x")])],
    .dict [("type", .str "content_block_start"),
           ("content_block", .dict [("type", .str "tool_use"),
                                    ("id", .str "tool-2"),
                                    ("name", .str "fetch")])],
    .dict [("type", .str "content_block_delta"),
           ("delta", .dict [("type", .str "input_json_delta"),
                            ("partial_json", .str "y")])] ]

/-- Witness for `C3_tool_call_index_stable` at the second tool-use block of
`c3Events` (its argument fragment gets index 1, the number of blocks opened
before it). -/
theorem C3_tool_call_index_stable_witness :
    (∃ c, handle_anthropic_event sampleEnv
          (runEvents sampleEnv 0 (c3Events.take 3)).1 (c3Events.get ⟨3, by decide⟩)
        = .ok (Option.some c, (runEvents sampleEnv 0 (c3Events.take 3)).1)
      ∧ chunkToolIndex c
          = PyVal.int (((c3Events.take 2).countP (fun e => evOpensToolUse e) : Int)))
    ∧ (∃ ca, handle_anthropic_event sampleEnv
          (runEvents sampleEnv 0 (c3Events.take 2)).1 (c3Events.get ⟨2, by decide⟩)
        = .ok (Option.some ca, (runEvents sampleEnv 0 (c3Events.take 2)).1 + 1)
      ∧ chunkToolIndex ca
          = PyVal.int (((c3Events.take 2).countP (fun e => evOpensToolUse e) : Int))) :=
  C3_tool_call_index_stable sampleEnv c3Events 2 3 (by omega) (by decide)
    (by rfl) (by rfl) (by intro k hk h1 h2; omega) (by rfl)

/-! Embedding of src/app/registry/model_config.py, src/app/registry/registry.py
and src/app/adapters/factory.py.  Dataclass fields are untyped at runtime in
Python, so every field is a `PyVal` (absent optional fields default to
`None`). -/

/-- The `ModelConfig` dataclass. -/
structure ModelConfig where
  name : PyVal
  backend : PyVal
  api_model : PyVal
  reasoning_effort : PyVal := PyVal.none
  deployment_name : PyVal := PyVal.none
  summary_level : PyVal := PyVal.none
  verbosity_level : PyVal := PyVal.none
  truncation_strategy : PyVal := PyVal.none
  max_tokens : PyVal := PyVal.none
  base_url : PyVal := PyVal.none
  thinking_budget : PyVal := PyVal.none
  api_format : PyVal := PyVal.none
  extra : PyVal := PyVal.none

/-- `ModelConfig.__post_init__` validation wrapped around construction:
`backend not in {"azure", "anthropic"}` raises `ValueError`. -/
def mkModelConfig (cfg : ModelConfig) : Except PErr ModelConfig :=
  if !(cfg.backend.eqStr "azure" || cfg.backend.eqStr "anthropic") then
    .error (.valueError ("Unsupported backend: " ++ pyStr cfg.backend))
  else
    .ok cfg

/-- Python `str(e)` for the exceptions the registry loader catches:
`str(KeyError)` is the repr of the missing key, `str(ValueError)` is its
message. -/
def pyErrStr : PErr → String
  | .keyError k => "\x27" ++ k ++ "\x27"
  | .valueError m => m
  | .serviceConfigurationError m => m
  | .cursorConfigurationError m => m
  | .modelNotFoundError m => m
  | .attributeError => "attribute error"
  | .typeError => "type error"

/-- Which exceptions `except (KeyError, ValueError)` catches (the custom
configuration errors subclass `ValueError`). -/
def catchesKeyValue : PErr → Bool
  | .keyError _ => true
  | .valueError _ => true
  | .serviceConfigurationError _ => true
  | .cursorConfigurationError _ => true
  | .modelNotFoundError _ => true
  | .attributeError => false
  | .typeError => false

/-- One iteration of `ModelRegistry._load_config`'s loop body: subscript
`backend` and `api_model` (KeyError when missing, TypeError on a non-dict
entry), `.get` the optional fields, construct the validated `ModelConfig`.
The loader does NOT pass `thinking_budget` (nor `api_format`) from the
document to the constructor, so those fields keep their `None` defaults. -/
def loadOne (model_name : String) (model_data : PyVal) : Except PErr ModelConfig :=
  match model_data.getItem "backend" with
  | .error e => .error e
  | .ok backend =>
    match model_data.getItem "api_model" with
    | .error e => .error e
    | .ok api_model =>
      mkModelConfig
        { name := .str model_name
          backend := backend
          api_model := api_model
          reasoning_effort := qget model_data "reasoning_effort"
          deployment_name := qget model_data "deployment_name"
          summary_level := qget model_data "summary_level"
          verbosity_level := qget model_data "verbosity_level"
          truncation_strategy := qget model_data "truncation_strategy"
          max_tokens := qget model_data "max_tokens"
          base_url := qget model_data "base_url"
          extra := qget model_data "extra" }

/-- Registry storage: insertion-ordered mapping, later assignments to the
same name overwrite in place (CPython dict). -/
def upsertCfg : List (String × ModelConfig) → String → ModelConfig →
    List (String × ModelConfig)
  | [], k, v => [(k, v)]
  | (k2, w) :: rest, k, v =>
    if k2 == k then (k2, v) :: rest else (k2, w) :: upsertCfg rest k v

/-- The `for model_name, model_data in models_dict.items()` loop of
`_load_config`: caught `KeyError`/`ValueError` becomes a
`ServiceConfigurationError` naming the model; anything else propagates. -/
def loadLoop : List (String × PyVal) → List (String × ModelConfig) →
    Except PErr (List (String × ModelConfig))
  | [], acc => .ok acc
  | (model_name, model_data) :: rest, acc =>
    match loadOne model_name model_data with
    | .ok config => loadLoop rest (upsertCfg acc model_name config)
    | .error e =>
      if catchesKeyValue e then
        .error (.serviceConfigurationError
          ("Invalid configuration for model \x27" ++ model_name ++ "\x27: "
            ++ pyErrStr e))
      else .error e

/-- `ModelRegistry._load_config` on an already-parsed document (the YAML
parsing itself is the excluded collaborator): requires a dict with a
top-level `models` dict, then loads each entry. -/
def load_config (data : PyVal) : Except PErr (List (String × ModelConfig)) :=
  if !(data.isDict && data.hasKey "models") then
    .error (.serviceConfigurationError
      "Configuration must have top-level \"models\" key")
  else
    match qget data "models" with
    | .dict models_dict => loadLoop models_dict []
    | _ => .error (.serviceConfigurationError "\"models\" must be a dictionary")

/-- `ModelRegistry.get_model_config`: first-match lookup (keys are unique),
`ModelNotFoundError` listing the available names otherwise. -/
def get_model_config (models : List (String × ModelConfig)) (model_name : String) :
    Except PErr ModelConfig :=
  match models.find? (fun p => p.1 == model_name) with
  | Option.some p => .ok p.2
  | Option.none =>
    .error (.modelNotFoundError
      ("Model \x27" ++ model_name ++ "\x27 is not configured. "
        ++ "Available models: " ++ String.intercalate ", " (models.map (·.1))))

/-- The adapter variants `AdapterFactory.create_adapter` can instantiate. -/
inductive AdapterChoice where
  | azure (config : ModelConfig)
  | anthropic (config : ModelConfig)

/-- `AdapterFactory.create_adapter`: a pure switch on `config.backend`;
unrecognized backends raise a `ServiceConfigurationError` naming the
supported set. -/
def create_adapter (model_config : ModelConfig) : Except PErr AdapterChoice :=
  if model_config.backend.eqStr "azure" then
    .ok (.azure model_config)
  else if model_config.backend.eqStr "anthropic" then
    .ok (.anthropic model_config)
  else
    .error (.serviceConfigurationError
      ("Unsupported backend: " ++ pyStr model_config.backend
        ++ ". Supported backends: azure, anthropic"))

theorem mkModelConfig_backend {cfg cfg2 : ModelConfig}
    (h : mkModelConfig cfg = .ok cfg2) :
    cfg2.backend.eqStr "azure" = true ∨ cfg2.backend.eqStr "anthropic" = true := by
  unfold mkModelConfig at h
  split at h
  · simp at h
  · rename_i hb
    have heq : cfg = cfg2 := by simpa using h
    subst heq
    have h2 : cfg.backend.eqStr "azure" = false →
        cfg.backend.eqStr "anthropic" = true := by simpa using hb
    by_cases ha : cfg.backend.eqStr "azure" = true
    · exact Or.inl ha
    · exact Or.inr (h2 (by simpa using ha))

theorem upsertCfg_mem {acc : List (String × ModelConfig)} {k : String}
    {v : ModelConfig} {p : String × ModelConfig}
    (h : p ∈ upsertCfg acc k v) : p ∈ acc ∨ p.2 = v := by
  induction acc with
  | nil => simp [upsertCfg] at h; simp [h]
  | cons q rest ih =>
    obtain ⟨k2, w⟩ := q
    simp only [upsertCfg] at h
    by_cases hk : k2 = k
    · rw [if_pos (by simpa using hk)] at h
      rcases List.mem_cons.mp h with h1 | h1
      · subst h1; simp
      · left; exact List.mem_cons_of_mem _ h1
    · rw [if_neg (by simpa using hk)] at h
      rcases List.mem_cons.mp h with h1 | h1
      · subst h1; left; exact List.mem_cons_self _ _
      · rcases ih h1 with h2 | h2
        · left; exact List.mem_cons_of_mem _ h2
        · right; exact h2

theorem loadLoop_backend :
    ∀ (entries : List (String × PyVal)) (acc regs : List (String × ModelConfig)),
      (∀ p ∈ acc, p.2.backend.eqStr "azure" = true
        ∨ p.2.backend.eqStr "anthropic" = true) →
      loadLoop entries acc = .ok regs →
      ∀ p ∈ regs, p.2.backend.eqStr "azure" = true
        ∨ p.2.backend.eqStr "anthropic" = true := by
  intro entries
  induction entries with
  | nil =>
    intro acc regs hacc h
    simp only [loadLoop] at h
    obtain rfl : acc = regs := by simpa using h
    exact hacc
  | cons e rest ih =>
    intro acc regs hacc h
    obtain ⟨model_name, model_data⟩ := e
    simp only [loadLoop] at h
    rcases ho : loadOne model_name model_data with e2 | config
    · rw [ho] at h
      simp only [] at h
      split at h <;> simp at h
    · rw [ho] at h
      simp only at h
      refine ih (upsertCfg acc model_name config) regs ?_ h
      intro p hp
      rcases upsertCfg_mem hp with h2 | h2
      · exact hacc p h2
      · rw [h2]
        unfold loadOne at ho
        rcases hb : model_data.getItem "backend" with e3 | backend <;> rw [hb] at ho
        · simp at ho
        · rcases ha : model_data.getItem "api_model" with e3 | api_model <;>
            rw [ha] at ho
          · simp at ho
          · exact mkModelConfig_backend ho

theorem get_model_config_mem {models : List (String × ModelConfig)}
    {name : String} {cfg : ModelConfig}
    (h : get_model_config models name = .ok cfg) :
    ∃ k, (k, cfg) ∈ models := by
  unfold get_model_config at h
  rcases hf : models.find? (fun p => p.1 == name) with _ | p
  · rw [hf] at h; simp at h
  · rw [hf] at h
    obtain rfl : p.2 = cfg := by simpa using h
    exact ⟨p.1, by simpa using List.mem_of_find?_eq_some hf⟩

/-- C9: `create_adapter` on a config whose backend is neither `azure` nor
`anthropic` raises a `ServiceConfigurationError` whose message names the
supported backends, and on the recognized tags it returns the
corresponding adapter variant. -/
theorem C9_factory_backend_dispatch (cfg : ModelConfig) :
    (cfg.backend.eqStr "azure" = false → cfg.backend.eqStr "anthropic" = false →
      create_adapter cfg = .error (.serviceConfigurationError
        ("Unsupported backend: " ++ pyStr cfg.backend
          ++ ". Supported backends: azure, anthropic")))
    ∧ (cfg.backend.eqStr "azure" = true →
        create_adapter cfg = .ok (.azure cfg))
    ∧ (cfg.backend.eqStr "anthropic" = true →
        create_adapter cfg = .ok (.anthropic cfg)) := by
  refine ⟨fun h1 h2 => ?_, fun h1 => ?_, fun h1 => ?_⟩
  · simp [create_adapter, h1, h2]
  · simp [create_adapter, h1]
  · unfold create_adapter
    by_cases ha : cfg.backend.eqStr "azure" = true
    · exfalso
      rcases hv : cfg.backend with _ | b | n | f | s | xs | kvs <;>
        rw [hv] at h1 ha <;> simp [PyVal.eqStr] at h1 ha
      subst h1
      simp at ha
    · rw [if_neg (by simpa using ha), if_pos (by simpa using h1)]

/-- C10: every successfully constructed `ModelConfig` has backend `azure`
or `anthropic`; construction with backend `kimi` raises; and any config
reached through registry load plus lookup makes the factory return the
Azure or the Anthropic variant — the pass-through Kimi adapter is
unreachable. -/
theorem C10_no_kimi_reachable :
    (∀ cfg cfg2 : ModelConfig, mkModelConfig cfg = .ok cfg2 →
       cfg2.backend.eqStr "azure" = true ∨ cfg2.backend.eqStr "anthropic" = true)
    ∧ (∀ cfg : ModelConfig, cfg.backend = .str "kimi" →
        mkModelConfig cfg = .error (.valueError "Unsupported backend: kimi"))
    ∧ (∀ (doc : PyVal) (regs : List (String × ModelConfig))
        (name : String) (cfg : ModelConfig),
        load_config doc = .ok regs →
        get_model_config regs name = .ok cfg →
        (create_adapter cfg = .ok (.azure cfg)
          ∨ create_adapter cfg = .ok (.anthropic cfg))) := by
  refine ⟨fun cfg cfg2 h => mkModelConfig_backend h, fun cfg h => ?_, ?_⟩
  · unfold mkModelConfig
    rw [h]
    simp [PyVal.eqStr, pyStr, pyRepr]
  · intro doc regs name cfg hload hget
    have hmem := get_model_config_mem hget
    obtain ⟨k, hk⟩ := hmem
    have hbackend : cfg.backend.eqStr "azure" = true
        ∨ cfg.backend.eqStr "anthropic" = true := by
      unfold load_config at hload
      split at hload
      · simp at hload
      · rcases hm : qget doc "models" with _ | b | n | f | s | xs | models_dict <;>
          rw [hm] at hload
        · simp at hload
        · simp at hload
        · simp at hload
        · simp at hload
        · simp at hload
        · simp at hload
        · exact loadLoop_backend models_dict [] regs (by simp) hload (k, cfg) hk
    by_cases ha : cfg.backend.eqStr "azure" = true
    · left; simp [create_adapter, ha]
    · right
      rcases hbackend with h1 | h1
      · exact absurd h1 ha
      · unfold create_adapter
        rw [if_neg (by simpa using ha), if_pos (by simpa using h1)]

/-- A config with the unrecognized backend `kimi`, as the repository's own
test constructs it. -/
def kimiCfg : ModelConfig :=
  { name := .str "kimi-test", backend := .str "kimi",
    api_model := .str "Kimi-K2-Thinking",
    base_url := .str "https://example.openai.azure.com/openai/v1" }

/-- An azure config as the repository's factory test constructs it. -/
def azureTestCfg : ModelConfig :=
  { name := .str "test-azure", backend := .str "azure",
    api_model := .str "gpt-5", reasoning_effort := .str "high" }

/-- Witness for `C9_factory_backend_dispatch` at the `kimi` and `azure`
configs. -/
theorem C9_factory_backend_dispatch_witness :
    create_adapter kimiCfg = .error (.serviceConfigurationError
      "Unsupported backend: kimi. Supported backends: azure, anthropic")
    ∧ create_adapter azureTestCfg = .ok (.azure azureTestCfg) :=
  ⟨(C9_factory_backend_dispatch kimiCfg).1 (by rfl) (by rfl),
   (C9_factory_backend_dispatch azureTestCfg).2.1 (by rfl)⟩

/-- A well-formed registry document with one anthropic model. -/
def c10Doc : PyVal :=
  .dict [("models", .dict [("claude-s",
    .dict [("backend", .str "anthropic"),
           ("api_model", .str "claude-sonnet-4-5")])])]

/-- The config `c10Doc` loads for `claude-s`. -/
def c10Cfg : ModelConfig :=
  { name := .str "claude-s", backend := .str "anthropic",
    api_model := .str "claude-sonnet-4-5" }

/-- Witness for `C10_no_kimi_reachable` at the concrete document
`c10Doc`. -/
theorem C10_no_kimi_reachable_witness :
    create_adapter c10Cfg = .ok (.azure c10Cfg)
      ∨ create_adapter c10Cfg = .ok (.anthropic c10Cfg) :=
  C10_no_kimi_reachable.2.2 c10Doc [("claude-s", c10Cfg)] "claude-s" c10Cfg
    (by rfl) (by rfl)

/-! Embedding of src/app/anthropic/request_adapter.py
(`AnthropicRequestAdapter`): the Messages-style request translator. -/

/-- Python iteration over a value: lists yield elements, strings yield
their characters, dicts yield their keys; other values raise `TypeError`. -/
def pyIter : PyVal → Except PErr (List PyVal)
  | .list xs => .ok xs
  | .str s => .ok (s.toList.map (fun c => .str (String.singleton c)))
  | .dict kvs => .ok (kvs.map (fun kv => .str kv.1))
  | _ => .error .typeError

/-- Python `sep.join(parts)`: `TypeError` on a non-string part. -/
def pyStrJoin (sep : String) : List PyVal → Except PErr String
  | [] => .ok ""
  | [x] =>
    match x with
    | .str s => .ok s
    | _ => .error .typeError
  | x :: rest =>
    match x with
    | .str s =>
      match pyStrJoin sep rest with
      | .ok r => .ok (s ++ sep ++ r)
      | .error e => .error e
    | _ => .error .typeError

/-- Set a key on a dict value (callers have already established dict-ness). -/
def pySetKey (v : PyVal) (k : String) (val : PyVal) : PyVal :=
  match v with
  | .dict kvs => .dict (upsert kvs k val)
  | other => other

/-- Split a string at the first occurrence of a separator, like
`s.split(sep, 1)` when the separator occurs (`none` when it does not,
which makes the two-name unpacking raise `ValueError`). -/
def splitAtFirst (sep : Char) : List Char → Option (List Char × List Char)
  | [] => Option.none
  | c :: cs =>
    if c = sep then Option.some ([], cs)
    else
      match splitAtFirst sep cs with
      | Option.some (l, r) => Option.some (c :: l, r)
      | Option.none => Option.none

/-- `header.split(":")[1].split(";")[0]`: the segment between the first and
second colon, cut at the first semicolon (the index access cannot fail here
because the header of a `data:`-prefixed URL always contains a colon). -/
def mediaTypeOfHeader (header : List Char) : List Char :=
  ((((header.dropWhile (fun c => c ≠ ':')).drop 1).takeWhile
    (fun c => c ≠ ':')).takeWhile (fun c => c ≠ ';'))

/-- The Anthropic image part built from a parsed `data:` URL. -/
def dataUrlImagePart (header dataPart : List Char) : PyVal :=
  .dict [("type", .str "image"),
         ("source", .dict [("type", .str "base64"),
                           ("media_type", .str (String.mk (mediaTypeOfHeader header))),
                           ("data", .str (String.mk dataPart))])]

/-- The item loop of `AnthropicRequestAdapter._convert_content`: text parts
kept, `data:` URLs with a comma converted (a missing comma is the caught
`ValueError` and skips the part), other image URLs skipped, non-dict items
skipped, all other typed parts passed through. -/
def convertContentItems : List PyVal → Except PErr (List PyVal)
  | [] => .ok []
  | item :: rest =>
    match item with
    | .dict kvs =>
      let item_type := (dictFind kvs "type").getD PyVal.none
      if item_type.eqStr "text" then
        match convertContentItems rest with
        | .ok l => .ok (item :: l)
        | .error e => .error e
      else if item_type.eqStr "image_url" then
        let image_url := (dictFind kvs "image_url").getD (.dict [])
        match image_url.attrGetD "url" (.str "") with
        | .error e => .error e
        | .ok url =>
          match url with
          | .str u =>
            if u.toList.take 5 = "data:".toList then
              match splitAtFirst ',' u.toList with
              | Option.some (header, dataPart) =>
                match convertContentItems rest with
                | .ok l => .ok (dataUrlImagePart header dataPart :: l)
                | .error e => .error e
              | Option.none => convertContentItems rest
            else convertContentItems rest
          | _ => .error .attributeError
      else
        match convertContentItems rest with
        | .ok l => .ok (item :: l)
        | .error e => .error e
    | _ => convertContentItems rest

/-- `AnthropicRequestAdapter._convert_content`: strings pass through,
lists are converted item-wise — but when every item was dropped the
ORIGINAL content is returned unchanged — and all other values pass
through. -/
def convert_content (content : PyVal) : Except PErr PyVal :=
  match content with
  | .str s => .ok (.str s)
  | .list items =>
    match convertContentItems items with
    | .error e => .error e
    | .ok anthropic_content =>
      .ok (if !anthropic_content.isEmpty then .list anthropic_content
           else .list items)
  | other => .ok other

/-- `AnthropicRequestAdapter._extract_system_messages`: collect the system
and developer parts in order. -/
def extractSystemLoop : List PyVal → Except PErr (List PyVal)
  | [] => .ok []
  | msg :: rest =>
    match msg.attrGet "role" with
    | .error e => .error e
    | .ok role =>
      if role.eqStr "system" || role.eqStr "developer" then
        match msg.attrGetD "content" (.str "") with
        | .error e => .error e
        | .ok content =>
          let here : List PyVal :=
            match content with
            | .str s => [.str s]
            | .list items =>
              items.filterMap (fun item =>
                match item with
                | .dict kvs =>
                  if ((dictFind kvs "type").getD PyVal.none).eqStr "text" then
                    Option.some ((dictFind kvs "text").getD (.str ""))
                  else Option.none
                | _ => Option.none)
            | _ => []
          match extractSystemLoop rest with
          | .ok l => .ok (here ++ l)
          | .error e => .error e
      else
        extractSystemLoop rest

/-- `AnthropicRequestAdapter._extract_system_messages`. -/
def extract_system_messages (messages : List PyVal) : Except PErr String :=
  match extractSystemLoop messages with
  | .error e => .error e
  | .ok parts =>
    if !parts.isEmpty then pyStrJoin "\n\n" parts else .ok ""

/-- Tool-use content parts for an assistant message's `tool_calls`
(`AnthropicRequestAdapter._convert_messages`, inner loop). -/
def buildToolUse : List PyVal → Except PErr (List PyVal)
  | [] => .ok []
  | tool_call :: rest =>
    match tool_call.attrGetD "function" (.dict []) with
    | .error e => .error e
    | .ok function =>
      match tool_call.attrGetD "id" (.str "") with
      | .error e => .error e
      | .ok tcid =>
        match function.attrGetD "name" (.str "") with
        | .error e => .error e
        | .ok fname =>
          match function.attrGetD "arguments" (.str "\x7b\x7d") with
          | .error e => .error e
          | .ok fargs =>
            match buildToolUse rest with
            | .ok l => .ok (.dict [("type", .str "tool_use"),
                                   ("id", tcid),
                                   ("name", fname),
                                   ("input", fargs)] :: l)
            | .error e => .error e

/-- Attach tool-use parts: extend the trailing assistant message (wrapping
string content into a text part first; `.extend` on non-list content
raises), or start a new assistant message. -/
def appendToolUse (acc tool_use_content : List PyVal) : Except PErr (List PyVal) :=
  match acc.getLast? with
  | Option.some last =>
    match last.getItem "role" with
    | .error e => .error e
    | .ok lrole =>
      if lrole.eqStr "assistant" then
        match last.getItem "content" with
        | .error e => .error e
        | .ok lcontent =>
          let lcontent2 :=
            if lcontent.isStr then
              PyVal.list [.dict [("type", .str "text"), ("text", lcontent)]]
            else lcontent
          match lcontent2 with
          | .list xs =>
            .ok (acc.dropLast
              ++ [pySetKey last "content" (.list (xs ++ tool_use_content))])
          | _ => .error .attributeError
      else .ok (acc ++ [.dict [("role", .str "assistant"),
                               ("content", .list tool_use_content)]])
  | Option.none => .ok (acc ++ [.dict [("role", .str "assistant"),
                                       ("content", .list tool_use_content)]])

/-- `AnthropicRequestAdapter._convert_messages`: the message loop with its
accumulated output list. -/
def convert_messages_loop : List PyVal → List PyVal → Except PErr (List PyVal)
  | [], acc => .ok acc
  | msg :: rest, acc =>
    match msg.attrGet "role" with
    | .error e => .error e
    | .ok role =>
      if role.eqStr "system" || role.eqStr "developer" then
        convert_messages_loop rest acc
      else
        match msg.attrGetD "content" (.str "") with
        | .error e => .error e
        | .ok content =>
          let step1 : Except PErr (List PyVal) :=
            if role.eqStr "user" || role.eqStr "assistant" then
              match convert_content content with
              | .error e => .error e
              | .ok cc => .ok (acc ++ [.dict [("role", role), ("content", cc)]])
            else if role.eqStr "tool" then
              match msg.attrGetD "tool_call_id" (.str "") with
              | .error e => .error e
              | .ok tcid =>
                .ok (acc ++ [.dict [("role", .str "user"),
                  ("content", .list [.dict [("type", .str "tool_result"),
                                            ("tool_use_id", tcid),
                                            ("content", content)]])]])
            else .ok acc
          match step1 with
          | .error e => .error e
          | .ok acc1 =>
            match msg.attrGet "tool_calls" with
            | .error e => .error e
            | .ok tool_calls =>
              if tool_calls.truthy then
                match pyIter tool_calls with
                | .error e => .error e
                | .ok tcs =>
                  match buildToolUse tcs with
                  | .error e => .error e
                  | .ok tool_use_content =>
                    if !tool_use_content.isEmpty then
                      match appendToolUse acc1 tool_use_content with
                      | .error e => .error e
                      | .ok acc2 => convert_messages_loop rest acc2
                    else convert_messages_loop rest acc1
              else convert_messages_loop rest acc1

/-- The tool loop of `AnthropicRequestAdapter._convert_tools`. -/
def convertToolsLoop : List PyVal → Except PErr (List PyVal)
  | [] => .ok []
  | tool :: rest =>
    match tool.attrGet "type" with
    | .error e => .error e
    | .ok ttype =>
      if !ttype.eqStr "function" then convertToolsLoop rest
      else
        match tool.attrGetD "function" (.dict []) with
        | .error e => .error e
        | .ok function =>
          match function.attrGetD "name" (.str "") with
          | .error e => .error e
          | .ok fname =>
            match function.attrGetD "description" (.str "") with
            | .error e => .error e
            | .ok fdesc =>
              match function.attrGetD "parameters" (.dict []) with
              | .error e => .error e
              | .ok fparams =>
                match convertToolsLoop rest with
                | .ok l => .ok (.dict [("name", fname),
                                       ("description", fdesc),
                                       ("input_schema", fparams)] :: l)
                | .error e => .error e

/-- `AnthropicRequestAdapter._convert_tools`. -/
def convert_tools (tools : PyVal) : Except PErr (List PyVal) :=
  if !tools.truthy then .ok []
  else
    match pyIter tools with
    | .error e => .error e
    | .ok ts => convertToolsLoop ts

/-- Python `s.rstrip("/")`. -/
def rstripSlash (s : String) : String :=
  String.mk ((s.toList.reverse.dropWhile (fun c => c = '/')).reverse)

/-- The ambient application settings the translators read
(src/app/settings.py guarantees the Azure fields are strings;
`ANTHROPIC_API_KEY` is read with `.get` and may be absent). -/
structure AppSettings where
  AZURE_API_KEY : String
  AZURE_DEPLOYMENT : String
  AZURE_SUMMARY_LEVEL : String
  AZURE_VERBOSITY_LEVEL : String
  AZURE_TRUNCATION : String
  AZURE_RESPONSES_API_URL : String
  ANTHROPIC_API_KEY : PyVal
  LOG_COMPLETION : Bool

/-- The upstream call descriptor returned by the request translators
(`data=None` and the constant timeout tuple are omitted: they carry no
information). -/
structure RequestKwargs where
  method : String
  url : String
  headers : List (String × PyVal)
  json : PyVal

/-- `AnthropicRequestAdapter.adapt` on a parsed JSON payload: build the
Messages API body (model, converted messages, token ceiling with the
request → config → 64000 fallback, extracted system text, sampling
parameters, converted tools, and the nested thinking option when the
config's `thinking_budget` is truthy), require `ANTHROPIC_API_KEY`, and
pick the base URL. -/
def anthropicAdapt (cfg : ModelConfig) (settings : AppSettings)
    (payload : PyVal) : Except PErr RequestKwargs :=
  match payload.attrGetD "messages" (.list []) with
  | .error e => .error e
  | .ok messages =>
    match payload.attrGet "max_tokens" with
    | .error e => .error e
    | .ok pmax =>
      let max_tokens := pyOr pmax (pyOr cfg.max_tokens (.int 64000))
      match pyIter messages with
      | .error e => .error e
      | .ok msgs =>
        match convert_messages_loop msgs [] with
        | .error e => .error e
        | .ok converted =>
          let body0 : List (String × PyVal) :=
            [("model", cfg.api_model),
             ("messages", .list converted),
             ("max_tokens", max_tokens),
             ("stream", .bool true)]
          match extract_system_messages msgs with
          | .error e => .error e
          | .ok system =>
            let body1 := if !system.isEmpty then body0 ++ [("system", .str system)]
                         else body0
            let body2 := if payload.hasKey "temperature" then
                body1 ++ [("temperature", qget payload "temperature")]
              else body1
            let body3 := if payload.hasKey "top_p" then
                body2 ++ [("top_p", qget payload "top_p")]
              else body2
            match payload.attrGet "tools" with
            | .error e => .error e
            | .ok toolsv =>
              let step : Except PErr (List (String × PyVal)) :=
                if toolsv.truthy then
                  match convert_tools toolsv with
                  | .error e => .error e
                  | .ok at2 => .ok (body3 ++ [("tools", .list at2)])
                else .ok body3
              match step with
              | .error e => .error e
              | .ok body4 =>
                let body5 := if cfg.thinking_budget.truthy then
                    body4 ++ [("thinking", .dict
                      [("type", .str "enabled"),
                       ("budget_tokens", cfg.thinking_budget)])]
                  else body4
                let api_key := settings.ANTHROPIC_API_KEY
                if !api_key.truthy then
                  .error (.serviceConfigurationError
                    "ANTHROPIC_API_KEY not set in environment")
                else
                  let urlE : Except PErr String :=
                    if cfg.base_url.truthy then
                      match cfg.base_url with
                      | .str b => .ok (rstripSlash b ++ "/v1/messages")
                      | _ => .error .attributeError
                    else .ok "https://api.anthropic.com/v1/messages"
                  match urlE with
                  | .error e => .error e
                  | .ok url =>
                    .ok { method := "POST"
                          url := url
                          headers := [("x-api-key", api_key),
                                      ("anthropic-version", .str "2023-06-01"),
                                      ("content-type", .str "application/json")]
                          json := .dict body5 }

/-- Sample ambient settings matching src/tests/settings.py. -/
def sampleSettings : AppSettings :=
  { AZURE_API_KEY := "test-api-key"
    AZURE_DEPLOYMENT := "gpt-5"
    AZURE_SUMMARY_LEVEL := "detailed"
    AZURE_VERBOSITY_LEVEL := "medium"
    AZURE_TRUNCATION := "disabled"
    AZURE_RESPONSES_API_URL :=
      "https://test-resource.openai.azure.com/openai/responses?api-version=2025-04-01-preview"
    ANTHROPIC_API_KEY := .str "test-anthropic-key"
    LOG_COMPLETION := true }

/-- A registry document configuring an extended-reasoning token budget. -/
def c6Doc : PyVal :=
  .dict [("models", .dict [("claude-t",
    .dict [("backend", .str "anthropic"),
           ("api_model", .str "claude-sonnet-4-5"),
           ("thinking_budget", .int 2048)])])]

/-- The config the registry actually loads from `c6Doc`: its
`thinking_budget` is `None` because `_load_config` never passes the field
to the constructor. -/
def c6Cfg : ModelConfig :=
  { name := .str "claude-t", backend := .str "anthropic",
    api_model := .str "claude-sonnet-4-5" }

/-- A minimal chat payload with one user message. -/
def c6Payload : PyVal :=
  .dict [("messages", .list [.dict [("role", .str "user"),
                                    ("content", .str "Hi")]])]

/-- C6: the registry loader drops the configured extended-reasoning token
budget (`thinking_budget` is not among the fields `_load_config` passes to
`ModelConfig`), so the loaded config carries `None` and the Messages-style
translator emits a request body WITHOUT the nested `thinking` option —
although the translator itself would include it for a config that carried
the budget (last conjunct), which shows the drop is a registry slip. -/
theorem C6_thinking_budget_dropped :
    load_config c6Doc = .ok [("claude-t", c6Cfg)]
    ∧ c6Cfg.thinking_budget = PyVal.none
    ∧ (∃ kw, anthropicAdapt c6Cfg sampleSettings c6Payload = .ok kw
        ∧ kw.json.hasKey "thinking" = false)
    ∧ (∃ kw2, anthropicAdapt
          { c6Cfg with thinking_budget := .int 2048 } sampleSettings c6Payload
          = .ok kw2
        ∧ kw2.json.hasKey "thinking" = true
        ∧ qget (qget kw2.json "thinking") "budget_tokens" = .int 2048) :=
  ⟨by rfl, by rfl, ⟨_, by rfl, by rfl⟩, ⟨_, by rfl, by rfl, by rfl⟩⟩

/-- Modelled from the spec sentence for C7: per item, text parts are kept
as-is, an image part whose URL is a parseable `data:` URL (it starts with
`data:` and contains a comma to split at) becomes a base64 image part with
the media type extracted from the header segment, an image part whose URL
cannot be parsed this way is dropped, non-dict items are dropped, and
other typed parts are kept. -/
def specConvertItem (item : PyVal) : Option PyVal :=
  match item with
  | .dict kvs =>
    let t := (dictFind kvs "type").getD PyVal.none
    if t.eqStr "text" then Option.some item
    else if t.eqStr "image_url" then
      match qgetD (qgetD item "image_url" (.dict [])) "url" (.str "") with
      | .str u =>
        if u.toList.take 5 = "data:".toList then
          match splitAtFirst ',' u.toList with
          | Option.some (header, dataPart) =>
            Option.some (dataUrlImagePart header dataPart)
          | Option.none => Option.none
        else Option.none
      | _ => Option.none
    else Option.some item
  | _ => Option.none

/-- Conversion refines the declarative per-item conversion: the loop's
output is item-wise `filterMap` of the spec-side function. -/
theorem convertContentItems_spec :
    ∀ (items l : List PyVal), convertContentItems items = .ok l →
      l = items.filterMap specConvertItem := by
  intro items
  induction items with
  | nil => intro l h; simpa [convertContentItems] using h.symm
  | cons item rest ih =>
    intro l h
    rw [List.filterMap_cons]
    cases item with
    | dict kvs =>
      simp only [convertContentItems] at h
      by_cases ht : ((dictFind kvs "type").getD PyVal.none).eqStr "text" = true
      · rw [if_pos ht] at h
        rcases hr : convertContentItems rest with e | l2 <;> rw [hr] at h
        · simp at h
        · obtain rfl : l = PyVal.dict kvs :: l2 := by simpa using h.symm
          rw [ih l2 hr]
          simp [specConvertItem, ht]
      · rw [if_neg (by simpa using ht)] at h
        by_cases hiu : ((dictFind kvs "type").getD PyVal.none).eqStr "image_url" = true
        · rw [if_pos hiu] at h
          rcases hurl : ((dictFind kvs "image_url").getD (.dict [])).attrGetD
              "url" (.str "") with e | url <;> rw [hurl] at h
          · simp at h
          · rcases url with _ | b | n | f | u | xs | ukvs
            pick_goal 5
            · simp only [] at h
              by_cases hdata : u.toList.take 5 = "data:".toList
              · rw [if_pos hdata] at h
                rcases hsplit : splitAtFirst ',' u.toList with _ | p
                · rw [hsplit] at h
                  rw [ih l h]
                  have hspec : specConvertItem (PyVal.dict kvs) = Option.none := by
                    simp only [specConvertItem, if_neg ht, if_pos hiu]
                    have : qgetD (qgetD (PyVal.dict kvs) "image_url" (.dict []))
                        "url" (.str "") = .str u := by
                      have := hurl
                      simp only [PyVal.attrGetD] at this
                      rcases hcb : (dictFind kvs "image_url").getD (PyVal.dict [])
                        with _ | b | n | f | s2 | xs2 | kvs2 <;> rw [hcb] at this <;>
                        simp at this
                      · simp [qgetD, hcb, ← this]
                    rw [this]
                    simp only []
                    rw [if_pos hdata, hsplit]
                  rw [hspec]
                · obtain ⟨header, dataPart⟩ := p
                  rw [hsplit] at h
                  rcases hr : convertContentItems rest with e | l2 <;> rw [hr] at h
                  · simp at h
                  · obtain rfl : l = dataUrlImagePart header dataPart :: l2 := by
                      simpa using h.symm
                    rw [ih l2 hr]
                    have hspec : specConvertItem (PyVal.dict kvs)
                        = Option.some (dataUrlImagePart header dataPart) := by
                      simp only [specConvertItem, if_neg ht, if_pos hiu]
                      have : qgetD (qgetD (PyVal.dict kvs) "image_url" (.dict []))
                          "url" (.str "") = .str u := by
                        have := hurl
                        simp only [PyVal.attrGetD] at this
                        rcases hcb : (dictFind kvs "image_url").getD (PyVal.dict [])
                          with _ | b | n | f | s2 | xs2 | kvs2 <;> rw [hcb] at this <;>
                          simp at this
                        · simp [qgetD, hcb, ← this]
                      rw [this]
                      simp only []
                      rw [if_pos hdata, hsplit]
                    rw [hspec]
              · rw [if_neg hdata] at h
                rw [ih l h]
                have hspec : specConvertItem (PyVal.dict kvs) = Option.none := by
                  simp only [specConvertItem, if_neg ht, if_pos hiu]
                  have : qgetD (qgetD (PyVal.dict kvs) "image_url" (.dict []))
                      "url" (.str "") = .str u := by
                    have := hurl
                    simp only [PyVal.attrGetD] at this
                    rcases hcb : (dictFind kvs "image_url").getD (PyVal.dict [])
                      with _ | b | n | f | s2 | xs2 | kvs2 <;> rw [hcb] at this <;>
                      simp at this
                    · simp [qgetD, hcb, ← this]
                  rw [this]
                  simp only []
                  rw [if_neg hdata]
                rw [hspec]
            all_goals simp at h
        · rw [if_neg hiu] at h
          rcases hr : convertContentItems rest with e | l2 <;> rw [hr] at h
          · simp at h
          · obtain rfl : l = PyVal.dict kvs :: l2 := by simpa using h.symm
            rw [ih l2 hr]
            simp [specConvertItem, ht, hiu]
    | none =>
      simp only [convertContentItems] at h
      rw [ih l h]
      simp [specConvertItem]
    | bool b =>
      simp only [convertContentItems] at h
      rw [ih l h]
      simp [specConvertItem]
    | int n =>
      simp only [convertContentItems] at h
      rw [ih l h]
      simp [specConvertItem]
    | float f =>
      simp only [convertContentItems] at h
      rw [ih l h]
      simp [specConvertItem]
    | str s =>
      simp only [convertContentItems] at h
      rw [ih l h]
      simp [specConvertItem]
    | list xs =>
      simp only [convertContentItems] at h
      rw [ih l h]
      simp [specConvertItem]

/-- C7 (amended): multi-part content conversion keeps text parts, converts
image parts with parseable `data:` URLs (splitting at the first comma,
media type from the header segment), and silently drops every other image
part and non-dict item — EXCEPT that when every part is dropped (the
converted list is empty) the original content is returned unchanged
rather than the parts being dropped. -/
theorem C7_amended_content_conversion :
    ∀ (items : List PyVal) (out : PyVal),
      convert_content (.list items) = .ok out →
      out = (if !(items.filterMap specConvertItem).isEmpty then
               PyVal.list (items.filterMap specConvertItem)
             else PyVal.list items) := by
  intro items out h
  unfold convert_content at h
  simp only [] at h
  rcases hc : convertContentItems items with e | l <;> rw [hc] at h
  · simp at h
  · obtain rfl : (if !l.isEmpty then PyVal.list l else PyVal.list items) = out := by
      simpa using h
    rw [convertContentItems_spec items l hc]

/-- An image part whose URL is not a parseable `data:` URL. -/
def c7BadImage : PyVal :=
  .dict [("type", .str "image_url"),
         ("image_url", .dict [("url", .str "http://example.com/cat.png")])]

/-- A plain text part. -/
def c7TextItem : PyVal := .dict [("type", .str "text"), ("text", .str "hello")]

/-- C7 (counterexample): an image part whose URL is not a `data:` URL
cannot be parsed, yet it is NOT dropped: when it is the only part, the
conversion returns the original content with the part still present,
refuting the claim as stated. -/
theorem C7_counterexample :
    convert_content (.list [c7BadImage]) = .ok (.list [c7BadImage]) := by rfl

/-- Witness for `C7_amended_content_conversion` at a two-part content list
whose unparseable image part is dropped (the converted list stays
non-empty thanks to the text part). -/
theorem C7_amended_content_conversion_witness :
    PyVal.list [c7TextItem]
      = (if !(([c7TextItem, c7BadImage]).filterMap specConvertItem).isEmpty then
           PyVal.list (([c7TextItem, c7BadImage]).filterMap specConvertItem)
         else PyVal.list [c7TextItem, c7BadImage]) :=
  C7_amended_content_conversion [c7TextItem, c7BadImage] (PyVal.list [c7TextItem]) (by rfl)

/-! Embedding of src/app/azure/request_adapter.py (`RequestAdapter`): the
Responses-style request translator. -/

/-- `RequestAdapter._extract_text_from_content`: concatenated text of all
text-type items (a non-string collected part makes the join raise). -/
def extract_text_from_content (content : PyVal) : Except PErr String :=
  match content with
  | .str s => .ok s
  | .list items =>
    let parts := items.filterMap (fun item =>
      match item with
      | .dict kvs =>
        let item_type := (dictFind kvs "type").getD PyVal.none
        if item_type.eqStr "text" then
          Option.some ((dictFind kvs "text").getD (.str ""))
        else if (dictFind kvs "text").isSome then
          Option.some (.str (pyStr ((dictFind kvs "text").getD (.str ""))))
        else Option.none
      | _ => Option.none)
    pyStrJoin "" parts
  | .none => .ok ""
  | other => .ok (pyStr other)

/-- `RequestAdapter._convert_content_to_responses_format`: map text and
image items to typed Responses input items (non-dict image_url values are
used directly as the URL). -/
def convert_content_to_responses_format (content role : PyVal) :
    List PyVal :=
  match content with
  | .str s =>
    [.dict [("type", .str (if role.eqStr "user" then "input_text"
                           else "output_text")),
            ("text", .str s)]]
  | .list items =>
    items.filterMap (fun item =>
      match item with
      | .dict kvs =>
        let item_type := (dictFind kvs "type").getD PyVal.none
        if item_type.eqStr "text" then
          let text := (dictFind kvs "text").getD (.str "")
          if text.truthy then
            Option.some (.dict [("type", .str (if role.eqStr "user" then
                                  "input_text" else "output_text")),
                                ("text", text)])
          else Option.none
        else if item_type.eqStr "image_url" then
          let image_url_obj := (dictFind kvs "image_url").getD (.dict [])
          let image_url :=
            match image_url_obj with
            | .dict okvs => (dictFind okvs "url").getD PyVal.none
            | other => other
          if image_url.truthy then
            Option.some (.dict [("type", .str "input_image"),
                                ("image_url", image_url)])
          else Option.none
        else Option.none
      | _ => Option.none)
  | _ => []

/-- Remove a header by its exact (title-cased) name. -/
def removeHeader (k : String) (hs : List (String × String)) :
    List (String × String) :=
  hs.filter (fun p => p.1 ≠ k)

/-- Append-or-update a string-valued header. -/
def upsertHeader : List (String × String) → String → String →
    List (String × String)
  | [], k, v => [(k, v)]
  | (k2, w) :: rest, k, v =>
    if k2 == k then (k2, v) :: rest else (k2, w) :: upsertHeader rest k v

/-- `RequestAdapter._copy_request_headers_for_azure`: drop `Host` and
`Authorization`, set `api-key`. -/
def copy_request_headers_for_azure (hdrs : List (String × String))
    (api_key : String) : List (String × String) :=
  upsertHeader (removeHeader "Authorization" (removeHeader "Host" hdrs))
    "api-key" api_key

/-- The `for tool_call in tool_calls` part of the message loop. -/
def responsesToolCallItems : List PyVal → Except PErr (List PyVal)
  | [] => .ok []
  | tool_call :: rest =>
    match tool_call.attrGetD "function" (.dict []) with
    | .error e => .error e
    | .ok function =>
      match tool_call.attrGet "id" with
      | .error e => .error e
      | .ok call_id =>
        match function.attrGet "name" with
        | .error e => .error e
        | .ok fname =>
          match function.attrGet "arguments" with
          | .error e => .error e
          | .ok fargs =>
            match responsesToolCallItems rest with
            | .ok l => .ok (.dict [("type", .str "function_call"),
                                   ("name", fname),
                                   ("arguments", fargs),
                                   ("call_id", call_id)] :: l)
            | .error e => .error e

/-- The message loop of
`RequestAdapter._messages_to_responses_input_and_instructions`, carrying
the collected instruction parts and input items. -/
def responsesMessagesLoop :
    List PyVal → List PyVal → List PyVal →
    Except PErr (List PyVal × List PyVal)
  | [], instructions_parts, input_items => .ok (instructions_parts, input_items)
  | m :: rest, instructions_parts, input_items =>
    match m.attrGet "role" with
    | .error e => .error e
    | .ok role =>
      match m.attrGet "content" with
      | .error e => .error e
      | .ok content =>
        if role.eqStr "system" || role.eqStr "developer" then
          match extract_text_from_content content with
          | .error e => .error e
          | .ok text =>
            responsesMessagesLoop rest
              (instructions_parts ++ [.str text]) input_items
        else if role.eqStr "tool" then
          match m.attrGet "tool_call_id" with
          | .error e => .error e
          | .ok call_id =>
            match extract_text_from_content content with
            | .error e => .error e
            | .ok text =>
              responsesMessagesLoop rest instructions_parts
                (input_items ++ [.dict [("type", .str "function_call_output"),
                                        ("output", .str text),
                                        ("status", .str "completed"),
                                        ("call_id", call_id)]])
        else
          let responses_content :=
            convert_content_to_responses_format content (pyOr role (.str "user"))
          let input_items1 :=
            if !responses_content.isEmpty then
              input_items ++ [.dict [("role", pyOr role (.str "user")),
                                     ("content", .list responses_content)]]
            else input_items
          match m.attrGet "tool_calls" with
          | .error e => .error e
          | .ok tool_calls =>
            if tool_calls.truthy then
              match pyIter tool_calls with
              | .error e => .error e
              | .ok tcs =>
                match responsesToolCallItems tcs with
                | .error e => .error e
                | .ok items2 =>
                  responsesMessagesLoop rest instructions_parts
                    (input_items1 ++ items2)
            else responsesMessagesLoop rest instructions_parts input_items1

/-- `RequestAdapter._messages_to_responses_input_and_instructions`. -/
def messages_to_responses_input_and_instructions (messages : List PyVal) :
    Except PErr PyVal :=
  match responsesMessagesLoop messages [] [] with
  | .error e => .error e
  | .ok (instructions_parts, input_items) =>
    match (if !instructions_parts.isEmpty then
             pyStrJoin "\n\n" instructions_parts
           else .ok "") with
    | .error e => .error e
    | .ok joined =>
      .ok (.dict
        [("instructions",
           if !instructions_parts.isEmpty then .str joined else PyVal.none),
         ("input",
           if !input_items.isEmpty then .list input_items else PyVal.none)])

/-- The tool loop of `RequestAdapter._transform_tools_for_responses`. -/
def transformToolsLoop : List PyVal → Except PErr (List PyVal)
  | [] => .ok []
  | tool :: rest =>
    match tool.attrGet "function" with
    | .error e => .error e
    | .ok function =>
      match function.attrGet "name" with
      | .error e => .error e
      | .ok fname =>
        match function.attrGet "description" with
        | .error e => .error e
        | .ok fdesc =>
          match function.attrGet "parameters" with
          | .error e => .error e
          | .ok fparams =>
            match transformToolsLoop rest with
            | .ok l => .ok (.dict [("type", .str "function"),
                                   ("name", fname),
                                   ("description", fdesc),
                                   ("parameters", fparams),
                                   ("strict", .bool false)] :: l)
            | .error e => .error e

/-- `RequestAdapter._transform_tools_for_responses`: non-list payloads are
logged and skipped (empty result). -/
def transform_tools_for_responses (tools : PyVal) : Except PErr (List PyVal) :=
  match tools with
  | .list ts => transformToolsLoop ts
  | _ => .ok []

/-- The upstream call descriptor built by the Azure request translator
(`data=None` and the constant timeout are omitted as informationless). -/
structure AzureRequestKwargs where
  method : String
  url : String
  headers : List (String × String)
  json : PyVal

/-- `RequestAdapter.adapt` on a parsed JSON payload and the inbound
headers: copy headers, map messages to Responses input/instructions,
set model/tools/tool_choice/prompt_cache_key/stream, require a truthy
`reasoning_effort`, validate the summary level against its closed
enumeration (raising with the allowed values otherwise), include the
verbosity only when it is `low` or `high`, set store/stream_options, and
include the truncation only when it equals `auto`. -/
def azureAdapt (cfg : ModelConfig) (settings : AppSettings) (payload : PyVal)
    (hdrs : List (String × String)) : Except PErr AzureRequestKwargs :=
  let upstream_headers :=
    copy_request_headers_for_azure hdrs settings.AZURE_API_KEY
  match payload.attrGet "messages" with
  | .error e => .error e
  | .ok pm =>
    let messages := pyOr pm (.list [])
    match (match messages with
           | .list ms => messages_to_responses_input_and_instructions ms
           | _ => .ok (.dict [("input", PyVal.none),
                              ("instructions", PyVal.none)])) with
    | .error e => .error e
    | .ok bodyBase =>
      let body := pySetKey bodyBase "model"
        (pyOr cfg.deployment_name (.str settings.AZURE_DEPLOYMENT))
      match payload.attrGetD "tools" (.list []) with
      | .error e => .error e
      | .ok toolsv =>
        match transform_tools_for_responses toolsv with
        | .error e => .error e
        | .ok tlist =>
          let body := pySetKey body "tools" (.list tlist)
          let body := pySetKey body "tool_choice" (qget payload "tool_choice")
          let body := pySetKey body "prompt_cache_key" (qget payload "user")
          let body := pySetKey body "stream" (.bool true)
          let reasoning_effort := cfg.reasoning_effort
          if !reasoning_effort.truthy then
            .error (.cursorConfigurationError
              ("Model \x27" ++ pyStr cfg.name
                ++ "\x27 is missing reasoning_effort configuration"))
          else
            let body := pySetKey body "reasoning"
              (.dict [("effort", reasoning_effort)])
            let summary_level :=
              pyOr cfg.summary_level (.str settings.AZURE_SUMMARY_LEVEL)
            if summary_level.eqStr "auto" || summary_level.eqStr "detailed"
                || summary_level.eqStr "concise" then
              let body := pySetKey body "reasoning"
                (pySetKey (qget body "reasoning") "summary" summary_level)
              let verbosity_level :=
                pyOr cfg.verbosity_level (.str settings.AZURE_VERBOSITY_LEVEL)
              let body :=
                if verbosity_level.eqStr "low" || verbosity_level.eqStr "high" then
                  pySetKey body "text" (.dict [("verbosity", verbosity_level)])
                else body
              let body := pySetKey body "store" (.bool false)
              let body := pySetKey body "stream_options"
                (.dict [("include_obfuscation", .bool false)])
              let truncation :=
                pyOr cfg.truncation_strategy (.str settings.AZURE_TRUNCATION)
              let body :=
                if truncation.eqStr "auto" then
                  pySetKey body "truncation" truncation
                else body
              .ok { method := "POST"
                    url := settings.AZURE_RESPONSES_API_URL
                    headers := upstream_headers
                    json := body }
            else
              .error (.serviceConfigurationError
                ("summary_level must be either auto, detailed, or concise."
                  ++ "\n\nGot: " ++ pyStr summary_level))

/-! ### Claim C5: policy validation in the Azure request translator -/

/-- Shape of a successful `_messages_to_responses_input_and_instructions`:
a two-entry dict holding `instructions` and `input`, in that insertion
order. -/
theorem messages_to_shape {ms : List PyVal} {b : PyVal}
    (h : messages_to_responses_input_and_instructions ms = .ok b) :
    ∃ iv inv, b = .dict [("instructions", iv), ("input", inv)] := by
  unfold messages_to_responses_input_and_instructions at h
  rcases h1 : responsesMessagesLoop ms [] [] with e | p <;> rw [h1] at h
  · simp at h
  · obtain ⟨parts, items⟩ := p
    simp only [] at h
    rcases h2 : (if !parts.isEmpty then pyStrJoin "\n\n" parts else .ok "") with
      e | joined <;> rw [h2] at h
    · simp at h
    · exact ⟨(if (!parts.isEmpty) = true then PyVal.str joined else PyVal.none),
         (if (!items.isEmpty) = true then PyVal.list items else PyVal.none),
         by simpa using h.symm⟩

/-- Lookup through `upsert`: the updated key reads back the new value,
every other key is unaffected. -/
theorem dictFind_upsert (kvs : List (String × PyVal)) (k : String) (v : PyVal)
    (k2 : String) :
    dictFind (upsert kvs k v) k2 = if k = k2 then Option.some v else dictFind kvs k2 := by
  induction kvs with
  | nil =>
    simp only [upsert, dictFind]
    by_cases h : k = k2
    · simp [h]
    · simp [h, (by simpa using h : (k == k2) = false)]
  | cons p rest ih =>
    obtain ⟨k3, w⟩ := p
    simp only [upsert]
    by_cases h3 : k3 = k
    · rw [if_pos (by simpa using h3)]
      subst h3
      by_cases h : k3 = k2
      · simp [dictFind, h]
      · simp [dictFind, (by simpa using h : (k3 == k2) = false), h]
    · rw [if_neg (by simpa using h3)]
      simp only [dictFind]
      by_cases h : k3 = k2
      · subst h
        rw [if_pos (by simp)]
        rw [if_neg (by intro hk; exact h3 hk.symm)]
        simp [dictFind]
      · rw [if_neg (by simpa using h), ih]
        by_cases hk : k = k2
        · simp [hk]
        · simp [hk, dictFind, (by simpa using h : (k3 == k2) = false)]

/-- A config routing to Azure with the effort set and everything else left
to the environment defaults. -/
def c5Cfg : ModelConfig :=
  { name := .str "gpt-5.2", backend := .str "azure",
    api_model := .str "gpt-5.2", reasoning_effort := .str "high" }

/-- The stock environment of src/app/settings.py: summary `auto`,
verbosity `medium`, truncation `disabled`. -/
def c5Settings : AppSettings :=
  { AZURE_API_KEY := "key", AZURE_DEPLOYMENT := "gpt-5.2",
    AZURE_SUMMARY_LEVEL := "auto", AZURE_VERBOSITY_LEVEL := "medium",
    AZURE_TRUNCATION := "disabled",
    AZURE_RESPONSES_API_URL := "https://example/openai/responses",
    ANTHROPIC_API_KEY := .none, LOG_COMPLETION := false }

/-- Counterexample to C5 as claimed: under the stock environment the
effective verbosity level is `medium` and the effective truncation
strategy is `disabled` — neither is in its claimed closed enumeration
(`low`/`high`, `auto`) — yet the translator raises no error: it succeeds
and silently leaves both the `text` and the `truncation` keys out of the
body. -/
theorem C5_counterexample :
    (azureAdapt c5Cfg c5Settings (.dict [("messages", .list [])]) []).map
        (fun kw => (kw.json.hasKey "text", kw.json.hasKey "truncation"))
      = .ok (false, false) := by rfl

/-- C5 (amended): of the three policy values only the summary level is
validated against its closed enumeration — on success it necessarily lies
in `auto`/`detailed`/`concise`, and when the reasoning effort is truthy
but the effective summary level is outside the enumeration the translator
raises `ServiceConfigurationError` listing the allowed values.  The
verbosity level and the truncation strategy are never validated: the
success body carries a `text` key exactly when the effective verbosity is
`low` or `high` and a `truncation` key exactly when the effective
truncation is `auto`; any other value (including the environment defaults
`medium` and `disabled`) is silently skipped, never an error. -/
theorem C5_amended_policy_validation (cfg : ModelConfig) (settings : AppSettings)
    (payload : PyVal) (hdrs : List (String × String)) :
    (∀ kw, azureAdapt cfg settings payload hdrs = .ok kw →
      ((pyOr cfg.summary_level (.str settings.AZURE_SUMMARY_LEVEL)).eqStr "auto"
        || (pyOr cfg.summary_level (.str settings.AZURE_SUMMARY_LEVEL)).eqStr "detailed"
        || (pyOr cfg.summary_level (.str settings.AZURE_SUMMARY_LEVEL)).eqStr "concise") = true
      ∧ kw.json.hasKey "text"
          = ((pyOr cfg.verbosity_level (.str settings.AZURE_VERBOSITY_LEVEL)).eqStr "low"
             || (pyOr cfg.verbosity_level (.str settings.AZURE_VERBOSITY_LEVEL)).eqStr "high")
      ∧ kw.json.hasKey "truncation"
          = (pyOr cfg.truncation_strategy (.str settings.AZURE_TRUNCATION)).eqStr "auto")
    ∧ (cfg.reasoning_effort.truthy = true →
       ((pyOr cfg.summary_level (.str settings.AZURE_SUMMARY_LEVEL)).eqStr "auto"
        || (pyOr cfg.summary_level (.str settings.AZURE_SUMMARY_LEVEL)).eqStr "detailed"
        || (pyOr cfg.summary_level (.str settings.AZURE_SUMMARY_LEVEL)).eqStr "concise") = false →
       azureAdapt cfg settings (.dict [("messages", .list [])]) hdrs
         = .error (.serviceConfigurationError
             ("summary_level must be either auto, detailed, or concise."
               ++ "\n\nGot: "
               ++ pyStr (pyOr cfg.summary_level (.str settings.AZURE_SUMMARY_LEVEL))))) := by
  constructor
  · intro kw h
    unfold azureAdapt at h
    rcases h1 : payload.attrGet "messages" with e | pm <;> rw [h1] at h
    · simp at h
    · simp only [] at h
      rcases h2 : (match pyOr pm (.list []) with
           | .list ms => messages_to_responses_input_and_instructions ms
           | _ => .ok (.dict [("input", PyVal.none),
                              ("instructions", PyVal.none)])) with e | bodyBase <;>
        rw [h2] at h
      · simp at h
      · simp only [] at h
        rcases h3 : payload.attrGetD "tools" (.list []) with e | toolsv <;>
          rw [h3] at h
        · simp at h
        · simp only [] at h
          rcases h4 : transform_tools_for_responses toolsv with e | tlist <;>
            rw [h4] at h
          · simp at h
          · simp only [] at h
            by_cases hre : (!cfg.reasoning_effort.truthy) = true
            · rw [if_pos hre] at h
              simp at h
            · rw [if_neg hre] at h
              by_cases hsum : ((pyOr cfg.summary_level
                  (.str settings.AZURE_SUMMARY_LEVEL)).eqStr "auto"
                || (pyOr cfg.summary_level
                  (.str settings.AZURE_SUMMARY_LEVEL)).eqStr "detailed"
                || (pyOr cfg.summary_level
                  (.str settings.AZURE_SUMMARY_LEVEL)).eqStr "concise") = true
              · rw [if_pos hsum] at h
                refine ⟨hsum, ?_⟩
                have hshape : ∃ kvs0, bodyBase = .dict kvs0
                    ∧ dictFind kvs0 "text" = Option.none
                    ∧ dictFind kvs0 "truncation" = Option.none := by
                  rcases hmv : pyOr pm (.list []) with _ | b | n | f | s | xs | kvs <;>
                    rw [hmv] at h2
                  case list =>
                    obtain ⟨iv, inv, rfl⟩ := messages_to_shape h2
                    exact ⟨_, rfl, by simp [dictFind], by simp [dictFind]⟩
                  all_goals
                    obtain rfl : PyVal.dict [("input", PyVal.none),
                        ("instructions", PyVal.none)] = bodyBase := by simpa using h2
                  all_goals
                    exact ⟨_, rfl, by simp [dictFind], by simp [dictFind]⟩
                obtain ⟨kvs0, rfl, hT, hTr⟩ := hshape
                obtain rfl : _ = kw := Except.ok.inj h
                simp only []
                by_cases hv : ((pyOr cfg.verbosity_level
                    (.str settings.AZURE_VERBOSITY_LEVEL)).eqStr "low"
                  || (pyOr cfg.verbosity_level
                    (.str settings.AZURE_VERBOSITY_LEVEL)).eqStr "high") = true <;>
                  by_cases htr : (pyOr cfg.truncation_strategy
                      (.str settings.AZURE_TRUNCATION)).eqStr "auto" = true <;>
                  (try simp only [Bool.not_eq_true] at hv) <;>
                  (try simp only [Bool.not_eq_true] at htr) <;>
                  simp +decide [hv, htr, pySetKey, PyVal.hasKey,
                    dictFind_upsert, hT, hTr]
              · rw [if_neg hsum] at h
                simp at h
  · intro hre hsum
    unfold azureAdapt
    rw [show (PyVal.dict [("messages", .list [])]).attrGet "messages"
      = .ok (.list []) from rfl]
    simp only []
    rw [show pyOr (PyVal.list []) (.list []) = PyVal.list [] from rfl]
    simp only []
    rw [show messages_to_responses_input_and_instructions [] =
      .ok (.dict [("instructions", PyVal.none), ("input", PyVal.none)]) from rfl]
    simp only []
    rw [show (PyVal.dict [("messages", .list [])]).attrGetD "tools" (.list [])
      = .ok (.list []) from rfl]
    simp only []
    rw [show transform_tools_for_responses (.list []) = .ok ([] : List PyVal)
      from rfl]
    simp only []
    rw [if_neg (by simp [hre]), if_neg (by simp [hsum])]

/-- A config whose summary level falls outside the enumeration. -/
def c5wCfg : ModelConfig :=
  { name := .str "gpt-5.2", backend := .str "azure",
    api_model := .str "gpt-5.2", reasoning_effort := .str "high",
    summary_level := .str "bogus" }

/-- Witness for C5: the error branch at a concrete out-of-enumeration
summary level. -/
theorem C5_amended_policy_validation_witness :
    azureAdapt c5wCfg c5Settings (.dict [("messages", .list [])]) []
      = .error (.serviceConfigurationError
          ("summary_level must be either auto, detailed, or concise."
            ++ "\n\nGot: "
            ++ pyStr (pyOr c5wCfg.summary_level
                 (.str c5Settings.AZURE_SUMMARY_LEVEL)))) :=
  (C5_amended_policy_validation c5wCfg c5Settings PyVal.none []).2
    (by decide) (by decide)

/-! ### Claim C8: upstream error handling (src/app/azure/adapter.py and
src/app/anthropic/adapter.py) -/

/-- The upstream HTTP response as the error handlers see it. -/
structure UpstreamResp where
  status_code : Nat
  text : List Char

/-- `try: resp.json() except ValueError: resp.text` (JSONDecodeError is a
ValueError). -/
def respContent (r : UpstreamResp) : PyVal :=
  match jsonLoads r.text with
  | Option.some v => v
  | Option.none => .str (String.mk r.text)

/-- The Flask `Response(error_message, status=...)` the handlers return. -/
structure HttpResp where
  body : String
  status : Nat

/-- Python slicing `v[:n]`: strings and lists slice, every other value
(`None` included) raises `TypeError` (not subscriptable). -/
def pySlice (v : PyVal) (n : Nat) : Except PErr PyVal :=
  match v with
  | .str s => .ok (.str (String.mk (s.toList.take n)))
  | .list xs => .ok (.list (xs.take n))
  | _ => .error .typeError

/-- Python `+` as reached from the redaction code: its left operand is
always the result of a slice (a string or a list), so concatenation of
like sequences succeeds and every other combination raises `TypeError`. -/
def pyConcat (a b : PyVal) : Except PErr PyVal :=
  match a, b with
  | .str s, .str t => .ok (.str (s ++ t))
  | .list xs, .list ys => .ok (.list (xs ++ ys))
  | _, _ => .error .typeError

/-- Python `len`: sequences and dicts have a length, `None`, booleans and
numbers raise `TypeError`. -/
def pyLen (v : PyVal) : Except PErr Nat :=
  match v with
  | .str s => .ok s.length
  | .list xs => .ok xs.length
  | .dict kvs => .ok kvs.length
  | _ => .error .typeError

/-- One newline-free segment under
`re.sub(r"(...)(.*)(...)", "\x5c1***\x5c3", s)`: with six or more
characters the greedy middle group swallows everything except the first
three and last three characters, which frame the `***`; shorter segments
admit no match and pass through unchanged. -/
def maskSegment (cs : List Char) : List Char :=
  if cs.length < 6 then cs
  else cs.take 3 ++ ('*' :: '*' :: '*' :: cs.drop (cs.length - 3))

/-- `re.sub(r"(...)(.*)(...)", "\x5c1***\x5c3", s)`: since `.` does not
match a newline, each maximal newline-free segment is masked
independently. -/
def maskPromptCacheKey (cs : List Char) : List Char :=
  List.intercalate ['\n'] ((cs.splitOn '\n').map maskSegment)

/-- The lazy tail `(.*?)(.\.)` of the endpoint pattern: the shortest
newline-free prefix followed by a non-newline character and a literal dot;
returns that character and the remainder after the dot. -/
def findDotPair : List Char → Option (List Char × Char × List Char)
  | [] => Option.none
  | [_] => Option.none
  | c :: d :: rest =>
    if c = '\n' then Option.none
    else if d = '.' then Option.some ([], c, rest)
    else
      match findDotPair (d :: rest) with
      | Option.some (g2, c3, rem) => Option.some (c :: g2, c3, rem)
      | Option.none => Option.none

/-- `re.sub(r"(//.)(.*?)(.\.)", "\x5c1***\x5c3", url)`: left-to-right
scan replacing each match (the fuel bounds the scan by the input length;
`reSubEndpoint (cs.length + 1) cs` never runs out). -/
def reSubEndpoint : Nat → List Char → List Char
  | 0, cs => cs
  | _ + 1, [] => []
  | fuel + 1, x :: xs =>
    match x :: xs with
    | '/' :: '/' :: c :: rest =>
      if c = '\n' then x :: reSubEndpoint fuel xs
      else
        match findDotPair rest with
        | Option.some (_, c3, rem) =>
          '/' :: '/' :: c :: '*' :: '*' :: '*' :: c3 :: '.' :: reSubEndpoint fuel rem
        | Option.none => x :: reSubEndpoint fuel xs
    | _ => x :: reSubEndpoint fuel xs

/-- The fallible redaction `_handle_azure_error` performs on the request
body before building its report: slice the instructions to 16 characters,
summarize the tools and input by their lengths, and mask the middle of the
prompt cache key.  `body.get(k, default)` only falls back when the key is
absent; a key present with value `None` hands `None` to the slice, to
`len` and to `re.sub`, each a `TypeError`. -/
def redact_request_body (body : PyVal) : Except PErr PyVal :=
  match body.attrGetD "instructions" (.str "no instructions") with
  | .error e => .error e
  | .ok instr =>
    match pySlice instr 16 with
    | .error e => .error e
    | .ok instr16 =>
      match pyConcat instr16 (.str "...") with
      | .error e => .error e
      | .ok instrRedacted =>
        let body := pySetKey body "instructions" instrRedacted
        match body.attrGetD "tools" (.str "no tools") with
        | .error e => .error e
        | .ok toolsv =>
          match pyLen toolsv with
          | .error e => .error e
          | .ok ntools =>
            let body := pySetKey body "tools"
              (.str ("...redacted " ++ toString ntools ++ " tools..."))
            match body.attrGetD "input" (.str "no input") with
            | .error e => .error e
            | .ok inputv =>
              match pyLen inputv with
              | .error e => .error e
              | .ok ninput =>
                let body := pySetKey body "input"
                  (.str ("...redacted " ++ toString ninput ++ " input items..."))
                match body.attrGetD "prompt_cache_key"
                    (.str "no prompt_cache_key") with
                | .error e => .error e
                | .ok pck =>
                  match pck with
                  | .str s =>
                    .ok (pySetKey body "prompt_cache_key"
                      (.str (String.mk (maskPromptCacheKey s.toList))))
                  | _ => .error .typeError

/-- `AzureAdapter._handle_azure_error`: decode the upstream body, redact
the request body, assemble the diagnostic report and return it with the
upstream status, 401 remapped to 400.  The report is serialized with the
compact `jsonDumps` (the source passes `indent=4` and then replaces each
newline by newline-tab: whitespace only). -/
def handle_azure_error (r : UpstreamResp) (kw : AzureRequestKwargs) :
    Except PErr HttpResp :=
  let resp_content := respContent r
  match redact_request_body kw.json with
  | .error e => .error e
  | .ok body =>
    let endpoint :=
      String.mk (reSubEndpoint (kw.url.toList.length + 1) kw.url.toList)
    let report := PyVal.dict
      [("endpoint", .str endpoint),
       ("azure_status_code", .int r.status_code),
       ("azure_response", resp_content),
       ("request_body", body)]
    let report_pretty := jsonDumps report
    let error_message :=
      "\nCheck \"azure_response\" for the error details:\n"
        ++ "\t" ++ report_pretty ++ "\n"
        ++ "If the issue persists, report it to:\n"
        ++ "\thttps://github.com/gabrii/Cursor-Azure-GPT-5/issues\n"
        ++ "Including all the details above"
    .ok { body := error_message,
          status := if r.status_code ≠ 401 then r.status_code else 400 }

/-- `AnthropicAdapter._handle_anthropic_error`: decode the upstream body
and return the diagnostic message with the upstream status, 401 remapped
to 400 (the request kwargs are accepted and unused, as in the source). -/
def handle_anthropic_error (r : UpstreamResp) (_kw : RequestKwargs) : HttpResp :=
  let resp_content := respContent r
  { body := "Anthropic API error (status " ++ toString r.status_code ++ "): "
      ++ pyStr resp_content ++ "\n"
      ++ "Check your ANTHROPIC_API_KEY and model configuration."
    status := if r.status_code ≠ 401 then r.status_code else 400 }

/-- A config routing to Azure with only the effort configured. -/
def c8Cfg : ModelConfig :=
  { name := .str "gpt-5.2", backend := .str "azure",
    api_model := .str "gpt-5.2", reasoning_effort := .str "high" }

/-- The stock environment for the C8 scenario. -/
def c8Settings : AppSettings :=
  { AZURE_API_KEY := "key", AZURE_DEPLOYMENT := "gpt-5.2",
    AZURE_SUMMARY_LEVEL := "auto", AZURE_VERBOSITY_LEVEL := "medium",
    AZURE_TRUNCATION := "disabled",
    AZURE_RESPONSES_API_URL := "https://example/openai/responses",
    ANTHROPIC_API_KEY := .none, LOG_COMPLETION := false }

/-- An upstream failure whose body is not JSON. -/
def c8Resp : UpstreamResp := ⟨500, "Internal Server Error".toList⟩

/-- C8: both handlers remap status 401 to 400 and pass every other status
through whenever they produce a response, and the Messages-style handler
always produces one; but the claim fails for the Responses-style variant:
on the very kwargs the Azure request translator builds for a payload with
no system message (so the body carries `instructions: None`), redaction
slices `None` and raises `TypeError`, so the non-success upstream status
propagates as an uncaught failure instead of an error response. -/
theorem C8_azure_error_handler_crashes (r : UpstreamResp) :
    (∀ kw, (handle_anthropic_error r kw).status
        = if r.status_code ≠ 401 then r.status_code else 400)
    ∧ (∀ kw h, handle_azure_error r kw = .ok h →
        h.status = if r.status_code ≠ 401 then r.status_code else 400)
    ∧ (azureAdapt c8Cfg c8Settings (.dict [("messages", .list [])]) []).map
        (fun kw => handle_azure_error c8Resp kw) = .ok (.error .typeError) := by
  refine ⟨fun kw => rfl, ?_, by rfl⟩
  intro kw h hok
  unfold handle_azure_error at hok
  rcases hr : redact_request_body kw.json with e | body <;> rw [hr] at hok
  · simp at hok
  · simp only [] at hok
    obtain rfl := Except.ok.inj hok
    rfl

/-- A 401 upstream response. -/
def c8Resp401 : UpstreamResp := ⟨401, "\x7b\"error\": \"denied\"\x7d".toList⟩

/-- Anthropic-side request kwargs for the witness. -/
def c8AKw : RequestKwargs :=
  { method := "POST", url := "https://api.anthropic.com/v1/messages",
    headers := [], json := .dict [] }

/-- Azure-side request kwargs on which redaction succeeds: every redacted
field is present as a string or a list. -/
def c8OkKw : AzureRequestKwargs :=
  { method := "POST",
    url := "https://myresource.openai.azure.com/openai/v1/responses",
    headers := [],
    json := .dict
      [("instructions", .str "You are a helpful assistant"),
       ("input", .list []),
       ("tools", .list []),
       ("prompt_cache_key", .str "user-abcdef123456")] }

/-- Witness for C8 at upstream status 401: both handlers map it to 400. -/
theorem C8_azure_error_handler_crashes_witness :
    (handle_anthropic_error c8Resp401 c8AKw).status = 400
    ∧ ∃ hres, handle_azure_error c8Resp401 c8OkKw = .ok hres
        ∧ hres.status = 400 := by
  obtain ⟨h1, h2, _⟩ := C8_azure_error_handler_crashes c8Resp401
  exact ⟨h1 c8AKw, ⟨_, rfl, h2 c8OkKw _ rfl⟩⟩
